import Mathlib

/-!
Shallow embedding of the indicator-calculation and feasibility engine of the
Nairobi-stock-Exchange repository (package `nse_analysis`), covering:

* `src/nse_analysis/indicators/calculator.py` (`_to_float`, `calculate_for_row`,
  `_extract_metric`, `_norm_key`, `calculate_batch`, `classify_market_insights`,
  `classify_weekly_market_insights`, `classify_monthly_market_insights`),
* `src/nse_analysis/indicators/feasibility.py` (`INDICATOR_REQUIREMENTS`,
  `AVAILABLE_FIELD_HINTS`, `analyze_feasibility`, `summarize_feasibility`),
* `src/nse_analysis/data/fetcher.py` (`DataFetcher.merge_current_data`),
* `src/nse_analysis/data/validator.py` (`validate_merged_rows`).

Modelling conventions:

* Python floats are modelled as rationals (`ℚ`) where the code keeps them
  finite, and the program's real failure modes are modelled explicitly:
  `calculate_for_row` returns `Except PyError`, distinguishing the caught
  `IndicatorCalculationError` from the uncaught pandas `KeyError` that
  `history.sort_values("date")` raises on the column-less empty frame
  (line 31 after line 30 substitutes `pd.DataFrame()`) and from the uncaught
  `ZeroDivisionError` of `latest_price / all_time_high` at line 82 when the
  all-time high is `0.0`.  The RSI return pipeline uses the IEEE-style
  `PyFloat` (finite/±inf/NaN), because `pct_change` turns a zero previous
  price into a ±infinite return that `dropna` keeps.  The NumPy-scalar
  divisions in the 1-day fallback and the 1-week/1-month horizon changes
  (lines 67, 71, 73) produce infinities rather than errors; their numeric
  values at a zero divisor are outside the rational model and no claim
  concerns them.  The CAGR real power `(end/start) ** (1/years) - 1` is kept
  symbolically (`Value.cagr`), and the IEEE NaN from reducing an empty
  series is `Value.nan`; claims about those fields concern only their
  presence.
* Python dicts are association lists with unique keys; `aset` mirrors
  `d[k] = v` (replace in place, else append) and `alookup` mirrors `d.get(k)`.
* A pandas DataFrame of historical prices is a typed list of `HistRow`
  records (columns `ticker_symbol`, `date`, `stock_price`); an empty frame is
  the empty list.  `sort_values` and Python's `sorted` are modelled by the
  stable `List.insertionSort` (Python's sort is stable, and a stable sort is
  extensionally unique; pandas' default quicksort fixes no tie order and no
  claim depends on one).
* String helpers (`pyStrip`, `charsLe`, `pyLowerAlnum`) re-implement the ASCII
  behaviour of Python's `str.strip`, string comparison and
  `str.lower`/`isalnum`; numeral string parsing (`parseDecimal?`) covers plain
  signed decimal literals, the subset relevant here.
-/

/-- JSON-like values carried by rows.  `null` is Python `None`; `nan` is an
IEEE NaN (from reducing an empty series, or from a both-infinite RSI);
`pinf`/`ninf` are the IEEE infinities; `cagr s e y` is the symbolic result
of `float((e / s) ** (1.0 / y) - 1.0)`, which has no rational value. -/
inductive Value : Type where
  | null : Value
  | nan : Value
  | pinf : Value
  | ninf : Value
  | num : ℚ → Value
  | str : String → Value
  | dict : List (String × Value) → Value
  | cagr : ℚ → ℚ → ℚ → Value

/-- The exceptions `calculate_for_row` can raise.  `calcError` is the
row-scoped `IndicatorCalculationError`, the only exception
`calculate_batch` catches; `keyError` is the pandas `KeyError` raised by
`history.sort_values("date")` on the column-less empty frame (line 31);
`zeroDivisionError` is the Python float division by zero at line 82 when
`all_time_high` is `0.0`. -/
inductive PyError : Type where
  | calcError : String → PyError
  | keyError : String → PyError
  | zeroDivisionError : PyError

/-- An IEEE-style float for the RSI return pipeline, where pandas
`pct_change` produces ±inf from zero previous prices (kept by `dropna`)
and the gains/losses means and their ratio follow IEEE arithmetic. -/
inductive PyFloat : Type where
  | fin : ℚ → PyFloat
  | pinf : PyFloat
  | ninf : PyFloat
  | nan : PyFloat
deriving DecidableEq

/-- A Python dict from field names to values (one row of data). -/
abbrev Row : Type := List (String × Value)

/-- Python `d.get(k)` on an association list (first matching key wins; a
Python dict has unique keys). -/
def alookup {α : Type} : List (String × α) → String → Option α
  | [], _ => none
  | kv :: rest, k => if kv.1 = k then some kv.2 else alookup rest k

/-- Python `d[k] = v`: replace the value of an existing key in place,
otherwise append the new key at the end (dict insertion order). -/
def aset {α : Type} : List (String × α) → String → α → List (String × α)
  | [], k, v => [(k, v)]
  | kv :: rest, k, v => if kv.1 = k then (k, v) :: rest else kv :: aset rest k v

/-- Python `k in d`. -/
def hasKey {α : Type} (m : List (String × α)) (k : String) : Bool :=
  m.any (fun kv => decide (kv.1 = k))

/-- Digit run to a natural number (`'0'`–`'9'`). -/
def digitsVal (cs : List Char) : Nat :=
  cs.foldl (fun a c => a * 10 + (c.toNat - 48)) 0

/-- Python `float(s)` on plain signed decimal literals (`"22"`, `"-3.5"`,
`"1."`, `".5"`); anything else is a `ValueError`, hence `none`.  Exponents,
`inf`/`nan` and surrounding whitespace are outside the modelled subset. -/
def parseDecimal? (s : String) : Option ℚ :=
  let core : List Char → Option ℚ := fun cs =>
    let intp := cs.takeWhile Char.isDigit
    let rest := cs.dropWhile Char.isDigit
    match rest with
    | [] => if intp.isEmpty then none else some (digitsVal intp : ℚ)
    | '.' :: frac =>
        if frac.all Char.isDigit && !(intp.isEmpty && frac.isEmpty) then
          some ((digitsVal intp : ℚ) + (digitsVal frac : ℚ) / (10 : ℚ) ^ frac.length)
        else none
    | _ => none
  match s.data with
  | '-' :: cs => (core cs).map (fun q => -q)
  | '+' :: cs => core cs
  | cs => core cs

/-- Python `float(v)` for a single value: numbers pass through, strings are
parsed, `None`/dicts raise (`→ none`); a NaN result is treated as unusable. -/
def pyFloat? : Value → Option ℚ
  | .num q => some q
  | .str s => parseDecimal? s
  | _ => none

/-- `_to_float(value)` from `calculator.py`: `None` (here: an absent key or an
explicit `null`) and unconvertible values give `None`. -/
def _to_float (v : Option Value) : Option ℚ :=
  v.bind pyFloat?

/-- Python `str(v)`.  Only its emptiness matters to the embedded claims: the
renderings of numbers, dicts and NaN are abstract but, as in Python, always
non-empty; `str(None)` is the non-empty string `"None"`. -/
def Value.pyStr : Value → String
  | .null => "None"
  | .nan => "nan"
  | .pinf => "inf"
  | .ninf => "-inf"
  | .num q => toString q.num
  | .str s => s
  | .dict _ => "\x7b...\x7d"
  | .cagr _ _ _ => "cagr"

/-- Python `s.strip()` (whitespace from both ends). -/
def pyStrip (s : String) : String :=
  String.mk (((s.data.dropWhile Char.isWhitespace).reverse.dropWhile Char.isWhitespace).reverse)

/-- Python truthiness, as used by `a or b` in `calculate_for_row`. -/
def Value.truthy : Value → Bool
  | .null => false
  | .nan => true
  | .pinf => true
  | .ninf => true
  | .num q => !(decide (q = 0))
  | .str s => !s.isEmpty
  | .dict d => !d.isEmpty
  | .cagr _ _ _ => true

/-- Code-point comparison of character lists: Python's `<=` on strings. -/
def charsLe : List Char → List Char → Bool
  | [], _ => true
  | _ :: _, [] => false
  | a :: as, b :: bs => if a < b then true else if b < a then false else charsLe as bs

/-- One row of the historical-price DataFrame (columns `ticker_symbol`,
`date`, `stock_price`).  `date` is an abstract sortable timestamp. -/
structure HistRow : Type where
  ticker_symbol : String
  date : Int
  stock_price : Value

/-- `str(row.get("ticker_symbol", "")).strip()` (calculator.py line 26). -/
def trimmedTicker (row : Row) : String :=
  pyStrip ((alookup row "ticker_symbol").getD (.str "")).pyStr

/-- Lines 30–31: this ticker's slice of the historical table, sorted by
`date` (stably; pandas' quicksort fixes no order among equal dates and no
claim depends on one). -/
def histFor (historical : List HistRow) (ticker : String) : List HistRow :=
  List.insertionSort (fun a b => a.date ≤ b.date)
    (historical.filter (fun h => decide (h.ticker_symbol = ticker)))

/-- Lines 32–34: the row's own `stock_price` if convertible, else the last
point of the ticker's (sorted) historical series. -/
def latestPrice? (row : Row) (history : List HistRow) : Option ℚ :=
  match _to_float (alookup row "stock_price") with
  | some q => some q
  | none =>
    match history.getLast? with
    | some h => pyFloat? h.stock_price
    | none => none

/-- Line 62: `pd.to_numeric(history["stock_price"], errors="coerce").dropna()`. -/
def historyPrices (history : List HistRow) : List ℚ :=
  history.filterMap (fun h => pyFloat? h.stock_price)

/-- `row.get("company_name") or row.get("stock_name") or ticker` (line 42). -/
def companyName (row : Row) (ticker : String) : Value :=
  (((alookup row "company_name").bind fun v => if v.truthy then some v else none).or
    ((alookup row "stock_name").bind fun v => if v.truthy then some v else none)).getD
    (.str ticker)

/-- A float-or-None stored into the metrics dict. -/
def numOpt (q : Option ℚ) : Value :=
  match q with
  | some q => .num q
  | none => .null

/-- Lines 40–45: the unconditional base of the metrics dict. -/
def baseMetrics (row : Row) (ticker : String) (latest : ℚ) : Row :=
  [("ticker_symbol", .str ticker),
   ("company_name", companyName row ticker),
   ("stock_price", .num latest),
   ("stock_change", numOpt (_to_float (alookup row "stock_change")))]

/-- Lines 47–58: 1-day change from `stock_change` (primary method). -/
def addPrimary1d (change? : Option ℚ) (latest : ℚ) (m : Row) : Row :=
  match change? with
  | none => m
  | some c =>
    let prev := latest - c
    if 0 < prev then aset m "price_change_1d_pct" (.num (c / prev * 100))
    else if |c| < 1 / 10000 then aset m "price_change_1d_pct" (.num 0)
    else aset m "price_change_1d_pct" .null

/-- `series.tail(n)`: the last `n` entries. -/
def lastN {α : Type} (n : Nat) (l : List α) : List α :=
  l.drop (l.length - n)

/-- `series.mean()` (total: the empty mean, NaN in pandas, is `0/0 = 0`;
every use below is guarded by a length bound except the ATH/ATL reductions,
which are modelled separately). -/
def meanQ (l : List ℚ) : ℚ :=
  l.sum / (l.length : ℚ)

/-- `series.max()` / `series.min()` of a possibly-empty series. -/
def listMax? : List ℚ → Option ℚ
  | [] => none
  | x :: xs => some (xs.foldl max x)

def listMin? : List ℚ → Option ℚ
  | [] => none
  | x :: xs => some (xs.foldl min x)

/-- IEEE addition on `PyFloat` (exact on finite values): any NaN operand
gives NaN, opposite infinities give NaN, an infinity absorbs finite values. -/
def pfAdd : PyFloat → PyFloat → PyFloat
  | .nan, _ => .nan
  | _, .nan => .nan
  | .pinf, .ninf => .nan
  | .ninf, .pinf => .nan
  | .pinf, _ => .pinf
  | _, .pinf => .pinf
  | .ninf, _ => .ninf
  | _, .ninf => .ninf
  | .fin a, .fin b => .fin (a + b)

/-- IEEE negation. -/
def pfNeg : PyFloat → PyFloat
  | .fin q => .fin (-q)
  | .pinf => .ninf
  | .ninf => .pinf
  | .nan => .nan

/-- IEEE division (NumPy float64 semantics: no exception; `x/0` is a signed
infinity, `0/0` and `inf/inf` are NaN, `x/inf` is zero). -/
def pfDiv : PyFloat → PyFloat → PyFloat
  | .nan, _ => .nan
  | _, .nan => .nan
  | .pinf, .pinf => .nan
  | .pinf, .ninf => .nan
  | .ninf, .pinf => .nan
  | .ninf, .ninf => .nan
  | .pinf, .fin q => if q < 0 then .ninf else .pinf
  | .ninf, .fin q => if q < 0 then .pinf else .ninf
  | .fin _, .pinf => .fin 0
  | .fin _, .ninf => .fin 0
  | .fin a, .fin b =>
    if b = 0 then (if a = 0 then .nan else if 0 < a then .pinf else .ninf)
    else .fin (a / b)

/-- `series.sum()` over the IEEE return values. -/
def sumPF (l : List PyFloat) : PyFloat :=
  l.foldl pfAdd (.fin 0)

/-- Division of a series reduction by a positive element count. -/
def pfDivNat (x : PyFloat) (n : Nat) : PyFloat :=
  match x with
  | .fin q => .fin (q / (n : ℚ))
  | .pinf => .pinf
  | .ninf => .ninf
  | .nan => .nan

/-- `series.mean()` over IEEE return values (NaN on the empty series). -/
def meanPF (l : List PyFloat) : PyFloat :=
  if l.length = 0 then .nan else pfDivNat (sumPF l) l.length

/-- `returns.clip(lower=0.0)` on one value. -/
def clipLow0 : PyFloat → PyFloat
  | .fin q => .fin (max q 0)
  | .pinf => .pinf
  | .ninf => .fin 0
  | .nan => .nan

/-- `returns.clip(upper=0.0)` on one value. -/
def clipHigh0 : PyFloat → PyFloat
  | .fin q => .fin (min q 0)
  | .pinf => .fin 0
  | .ninf => .ninf
  | .nan => .nan

/-- Line 84: `history_prices.pct_change().dropna()` — one return per
consecutive pair.  The leading NaN and the `0/0` NaNs are dropped by
`dropna`, but a zero previous price before a non-zero price yields a
±infinite return that `dropna` keeps. -/
def pctChange (hp : List ℚ) : List PyFloat :=
  (hp.zip (hp.drop 1)).filterMap fun pc =>
    if pc.1 = 0 then
      if pc.2 = 0 then none
      else if 0 < pc.2 then some .pinf
      else some .ninf
    else some (.fin (pc.2 / pc.1 - 1))

/-- Line 86: mean of the positive parts of the trailing 14 returns. -/
def gainsOf (rets : List PyFloat) : PyFloat :=
  meanPF (lastN 14 (rets.map clipLow0))

/-- Line 87: mean of the negated negative parts of the trailing 14 returns. -/
def lossesOf (rets : List PyFloat) : PyFloat :=
  pfNeg (meanPF (lastN 14 (rets.map clipHigh0)))

/-- Lines 88–92: RSI(14).  The `losses == 0` saturation guard catches the
exact-zero losses mean only; with infinite gains and losses the ratio is
NaN and the emitted value is NaN. -/
def rsiOf (rets : List PyFloat) : PyFloat :=
  if lossesOf rets = .fin 0 then .fin 100
  else
    pfAdd (.fin 100)
      (pfNeg (pfDiv (.fin 100) (pfAdd (.fin 1) (pfDiv (gainsOf rets) (lossesOf rets)))))

/-- The stored metric value of an IEEE float. -/
def pfToValue : PyFloat → Value
  | .fin q => .num q
  | .pinf => .pinf
  | .ninf => .ninf
  | .nan => .nan

/-- `((iloc[-1] / iloc[-k]) - 1) * 100`, used with `len hp ≥ k`.  The NumPy
scalar division yields an infinity (not an error) on a zero divisor; that
value is outside the rational model and no claim concerns it. -/
def horizonChange (hp : List ℚ) (k : Nat) : ℚ :=
  (hp.getLastD 0 / hp.getD (hp.length - k) 0 - 1) * 100

/-- Lines 80–82 values: max/min over the whole numeric series, NaN when the
ticker has rows but no numeric price. -/
def athValue (hp : List ℚ) : Value :=
  match listMax? hp with
  | some q => .num q
  | none => .nan

def atlValue (hp : List ℚ) : Value :=
  match listMin? hp with
  | some q => .num q
  | none => .nan

/-- The value stored at line 82 when it does not raise: on a successful row
the all-time high `q` is non-zero (the `q = 0` case raises the uncaught
`ZeroDivisionError`, modelled as an error result of `calculate_for_row`),
and an empty numeric series gives `latest / NaN = NaN`. -/
def distValue (latest : ℚ) (hp : List ℚ) : Value :=
  match listMax? hp with
  | some q => .num ((latest / q - 1) * 100)
  | none => .nan

/-- Lines 93–98 value, kept symbolic (real exponentiation). -/
def cagrValue (hp : List ℚ) : Value :=
  .cagr (hp.headD 0) (hp.getLastD 0) ((hp.length : ℚ) / 252)

/-- `if cond: metrics[k] = v` — one soft-gated assignment. -/
def stepSet (cond : Bool) (k : String) (v : Value) (m : Row) : Row :=
  if cond then aset m k v else m

/-- Line 65 guard: `"price_change_1d_pct" not in metrics or metrics[...] is None`. -/
def fallback1dNeeded (m : Row) : Bool :=
  !hasKey m "price_change_1d_pct" ||
    (match alookup m "price_change_1d_pct" with
     | some .null => true
     | _ => false)

/-- Lines 62–98: the history-gated block, entered only when the ticker's
history slice is non-empty; `hp` is its numeric price series. -/
def addHistoryMetrics (latest : ℚ) (hp : List ℚ) (m : Row) : Row :=
  let m := stepSet (fallback1dNeeded m && decide (2 ≤ hp.length)) "price_change_1d_pct"
    (.num ((hp.getLastD 0 / hp.dropLast.getLastD 0 - 1) * 100)) m
  let m := stepSet (decide (5 ≤ hp.length)) "price_change_1w_pct" (.num (horizonChange hp 5)) m
  let m := stepSet (decide (22 ≤ hp.length)) "price_change_1m_pct" (.num (horizonChange hp 22)) m
  let m := stepSet (decide (22 ≤ hp.length)) "moving_average_20d" (.num (meanQ (lastN 20 hp))) m
  let m := stepSet (decide (50 ≤ hp.length)) "moving_average_50d" (.num (meanQ (lastN 50 hp))) m
  let m := stepSet (decide (200 ≤ hp.length)) "moving_average_200d" (.num (meanQ (lastN 200 hp))) m
  let m := aset m "all_time_high" (athValue hp)
  let m := aset m "all_time_low" (atlValue hp)
  let m := aset m "distance_from_ath_pct" (distValue latest hp)
  let m := stepSet (decide (14 ≤ (pctChange hp).length)) "rsi_14"
    (pfToValue (rsiOf (pctChange hp))) m
  let m := stepSet
    (decide (252 ≤ hp.length) && (decide (0 < hp.headD 0) && decide (0 < (hp.length : ℚ) / 252)))
    "return_cagr" (cagrValue hp) m
  m

/-- Lines 61–98 as a guarded block. -/
def histBlock (latest : ℚ) (history : List HistRow) (m : Row) : Row :=
  if history.isEmpty then m else addHistoryMetrics latest (historyPrices history) m

/-- `_norm_key(value)`: lowercase, keep alphanumerics (calculator.py 144–145;
ASCII behaviour of `str.lower`/`str.isalnum`). -/
def _norm_key (s : String) : String :=
  String.mk ((s.data.map Char.toLower).filter Char.isAlphanum)

/-- The normalized-spelling dict `{_norm_key(k): v for k, v in payload.items()}`
(line 133); on normalization collisions the later key wins, as in a Python
dict comprehension. -/
def normalizedOf (payload : List (String × Value)) : List (String × Value) :=
  payload.foldl (fun acc kv => aset acc (_norm_key kv.1) kv.2) []

/-- A lookup that, like `is not None` in the loop body, rejects `null`. -/
def getNonNull (p : List (String × Value)) (k : String) : Option Value :=
  match alookup p k with
  | some .null => none
  | some v => some v
  | none => none

/-- The candidate-spelling loop of `_extract_metric` (lines 134–141). -/
def extractLoop (payload normalized : List (String × Value)) : List String → Option Value
  | [] => none
  | k :: ks =>
    match getNonNull payload k with
    | some v => some v
    | none =>
      match getNonNull normalized (_norm_key k) with
      | some v => some v
      | none => extractLoop payload normalized ks

/-- `_extract_metric(payload, keys)` (lines 132–141); `none` is the Python
`None` returned when no spelling matches. -/
def _extract_metric (payload : List (String × Value)) (keys : List String) : Option Value :=
  extractLoop payload (normalizedOf payload) keys

/-- An extraction result stored into the metrics dict (`None` → `null`). -/
def valOpt (v : Option Value) : Value :=
  v.getD .null

/-- `row["overview_metrics"] if isinstance(row.get(...), dict) else {}`
(lines 100–112). -/
def subdict (row : Row) (k : String) : List (String × Value) :=
  match alookup row k with
  | some (.dict d) => d
  | _ => []

/-- Lines 100–127: the ten nested valuation/dividend/price/performance
fields, always assigned (null when nothing matches). -/
def addNestedMetrics (row : Row) (m : Row) : Row :=
  let overview := subdict row "overview_metrics"
  let dividends := subdict row "dividends_metrics"
  let price_metrics := subdict row "price_metrics"
  let performance := subdict row "performance_metrics"
  let m := aset m "market_cap" (valOpt (_extract_metric overview ["marketCap", "market_cap", "Market Cap"]))
  let m := aset m "revenue" (valOpt (_extract_metric overview ["revenue", "Revenue"]))
  let m := aset m "pe_ratio" (valOpt (_extract_metric overview ["peRatio", "pe_ratio", "PE Ratio"]))
  let m := aset m "pb_ratio" (valOpt (_extract_metric overview ["pbRatio", "pb_ratio", "PB Ratio"]))
  let m := aset m "ps_ratio" (valOpt (_extract_metric overview ["psRatio", "ps_ratio", "PS Ratio"]))
  let m := aset m "dividend_yield" (valOpt (_extract_metric dividends ["dividendYield", "dividend_yield", "Dividend Yield"]))
  let m := aset m "week_52_low" (valOpt (_extract_metric price_metrics ["low52", "52 Week Low", "52_week_low"]))
  let m := aset m "week_52_high" (valOpt (_extract_metric price_metrics ["high52", "52 Week High", "52_week_high"]))
  let m := aset m "total_return_1m" (valOpt (_extract_metric performance ["tr1m", "Total Return 1M"]))
  let m := aset m "total_return_1y" (valOpt (_extract_metric performance ["tr1y", "Total Return 1Y"]))
  m

/-- The successful body of `calculate_for_row` once ticker and latest price
are known. -/
def buildMetrics (row : Row) (history : List HistRow) (latest : ℚ) : Row :=
  addNestedMetrics row
    (histBlock latest history
      (addPrimary1d (_to_float (alookup row "stock_change")) latest
        (baseMetrics row (trimmedTicker row) latest)))

/-- `calculate_for_row(row, historical)` (calculator.py lines 24–129): after
the ticker check, an empty historical frame makes line 31 raise the uncaught
`KeyError: 'date'` (line 30 substituted a column-less `pd.DataFrame()`);
then the latest-price check; then the only remaining exception on the path
to the returned dict is the uncaught `ZeroDivisionError` of line 82, raised
exactly when the ticker's numeric price series is non-empty with an
all-time high of zero.  The exception aborts the row, so it is modelled as
the row's result. -/
def calculate_for_row (row : Row) (historical : List HistRow) : Except PyError Row :=
  if trimmedTicker row = "" then .error (.calcError "Missing ticker symbol in merged row.")
  else if historical.isEmpty then .error (.keyError "date")
  else
    match latestPrice? row (histFor historical (trimmedTicker row)) with
    | none => .error (.calcError ("Missing latest price for " ++ trimmedTicker row ++ "."))
    | some latest =>
      if listMax? (historyPrices (histFor historical (trimmedTicker row))) = some 0 then
        .error .zeroDivisionError
      else .ok (buildMetrics row (histFor historical (trimmedTicker row)) latest)

/-- `calculate_batch(rows, historical)` (lines 148–156): keep the successes
in input order; the `except IndicatorCalculationError` clause silently
skips only that error, so any other exception propagates out of the loop. -/
def calculate_batch (rows : List Row) (historical : List HistRow) :
    Except PyError (List Row) :=
  match rows with
  | [] => .ok []
  | r :: rest =>
    match calculate_for_row r historical with
    | .ok m => (calculate_batch rest historical).map (fun l => m :: l)
    | .error (.calcError _) => calculate_batch rest historical
    | .error e => .error e

/-- `Except.isOk`, to state "raises" without binders. -/
def exceptIsOk {ε α : Type} : Except ε α → Bool
  | .ok _ => true
  | .error _ => false

/-- Did the computation raise the (caught) `IndicatorCalculationError`? -/
def isCalcError {α : Type} : Except PyError α → Bool
  | .error (.calcError _) => true
  | _ => false

/-- Did the computation raise an exception `calculate_batch` does not catch
(`KeyError` or `ZeroDivisionError`)? -/
def isUncaughtError {α : Type} : Except PyError α → Bool
  | .error (.keyError _) => true
  | .error .zeroDivisionError => true
  | _ => false

/-- The coerced change column: `pd.to_numeric(frame[key], errors="coerce")`
applied to a row's entry (a missing key or unparseable value is NaN → none). -/
def changeOf (key : String) (r : Row) : Option ℚ :=
  _to_float (alookup r key)

/-- The change values that are defined (non-NaN) across the batch. -/
def definedChanges (key : String) (rows : List Row) : List ℚ :=
  rows.filterMap (changeOf key)

/-- `float(np.nanmean(col)) if col.notna().any() else 0.0`. -/
def meanOr0 (l : List ℚ) : ℚ :=
  if l = [] then 0 else l.sum / (l.length : ℚ)

/-- `"bullish" if mean > 0 else "bearish" if mean < 0 else "flat"`. -/
def trendOf (mean : ℚ) : String :=
  if 0 < mean then "bullish" else if mean < 0 then "bearish" else "flat"

/-- Descending order on coerced change values with NaN (undefined) last:
`sort_values(key, ascending=False, na_position="last")`. -/
def descKeyLe (a b : Option ℚ) : Bool :=
  match a, b with
  | some x, some y => decide (y ≤ x)
  | some _, none => true
  | none, some _ => false
  | none, none => true

/-- The ranking relation on rows used by the classifiers. -/
def descRel (key : String) (a b : Row) : Prop :=
  descKeyLe (changeOf key a) (changeOf key b) = true

instance (key : String) (a b : Row) : Decidable (descRel key a b) := by
  unfold descRel; infer_instance

/-- The classifier's descending ranking (stable; pandas' quicksort fixes no
tie order and no claim depends on one). -/
def rankDesc (key : String) (rows : List Row) : List Row :=
  List.insertionSort (descRel key) rows

/-- One projected output record: selected columns with NaN/None filled by 0.0
(`frame[cols].fillna(0.0).to_dict("records")`); `coerced` marks the column
that was overwritten by its `pd.to_numeric` coercion before projection. -/
def projCol (r : Row) (k : String) (coerced : Bool) : Value :=
  if coerced then .num ((changeOf k r).getD 0)
  else
    match alookup r k with
    | some .null => .num 0
    | some .nan => .num 0
    | some v => v
    | none => .num 0

/-- The market summary dict.  `mean_change_pct` is the granularity's
`mean_*_change_pct` entry, absent (`none`) on the insufficient-data branch. -/
structure MarketSummary : Type where
  market_trend : String
  mean_change_pct : Option ℚ
  top_gainers : List Row
  top_losers : List Row

/-- Common shape of the three `classify_*_market_insights` functions:
change-percentage column `key`, top/bottom size `n`, record projection `proj`. -/
def classifyCore (key : String) (n : Nat) (proj : Row → Row) (rows : List Row) : MarketSummary :=
  match rows with
  | [] => ⟨"insufficient_data", none, [], []⟩
  | _ :: _ =>
    let mean := meanOr0 (definedChanges key rows)
    let ordered := rankDesc key rows
    ⟨trendOf mean, some mean,
      (ordered.take n).map proj,
      (ordered.drop (ordered.length - n)).map proj⟩

/-- Daily output record: `[["ticker_symbol", "price_change_1d_pct"]]`. -/
def projDaily (r : Row) : Row :=
  [("ticker_symbol", projCol r "ticker_symbol" false),
   ("price_change_1d_pct", projCol r "price_change_1d_pct" true)]

/-- `classify_market_insights` (calculator.py lines 159–178). -/
def classify_market_insights (indicators : List Row) : MarketSummary :=
  classifyCore "price_change_1d_pct" 5 projDaily indicators

/-- Weekly output record (lines 194–195). -/
def projWeekly (r : Row) : Row :=
  [("ticker_symbol", projCol r "ticker_symbol" false),
   ("company_name", projCol r "company_name" false),
   ("stock_price", projCol r "stock_price" false),
   ("price_change_1w_pct", projCol r "price_change_1w_pct" true)]

/-- `classify_weekly_market_insights` (lines 181–197). -/
def classify_weekly_market_insights (indicators : List Row) : MarketSummary :=
  classifyCore "price_change_1w_pct" 10 projWeekly indicators

/-- Monthly output record (lines 213–214). -/
def projMonthly (r : Row) : Row :=
  [("ticker_symbol", projCol r "ticker_symbol" false),
   ("company_name", projCol r "company_name" false),
   ("stock_price", projCol r "stock_price" false),
   ("market_cap", projCol r "market_cap" false),
   ("price_change_1m_pct", projCol r "price_change_1m_pct" true)]

/-- `classify_monthly_market_insights` (lines 200–216). -/
def classify_monthly_market_insights (indicators : List Row) : MarketSummary :=
  classifyCore "price_change_1m_pct" 15 projMonthly indicators

/-- The recency key of `merge_current_data`'s sort: `r.get("scraped_at", "")`
(fetcher.py line 63).  Timestamps are ISO strings; a missing (or non-string,
which Python could not compare) timestamp is the bottom value `""`. -/
def tsKey (r : Row) : String :=
  match alookup r "scraped_at" with
  | some (.str s) => s
  | _ => ""

/-- `sorted(analysis_rows, key=..., reverse=True)` (lines 61–65): stable
descending sort by `tsKey` (Python's `sorted` is stable and `reverse=True`
keeps the original order of equal keys). -/
def tsGeRel (a b : Row) : Prop :=
  charsLe (tsKey b).data (tsKey a).data = true

instance (a b : Row) : Decidable (tsGeRel a b) := by
  unfold tsGeRel; infer_instance

def sortDescByTs (rows : List Row) : List Row :=
  List.insertionSort tsGeRel rows

/-- The body of the per-row loop (lines 67–73): skip blank tickers, keep the
first (most recent) row per ticker. -/
def addRowIfNew (acc : List (String × Row)) (row : Row) : List (String × Row) :=
  if trimmedTicker row = "" then acc
  else if hasKey acc (trimmedTicker row) then acc
  else acc ++ [(trimmedTicker row, row)]

/-- The `by_ticker` dict built by `merge_current_data` (lines 66–73). -/
def merge_by_ticker (rows : List Row) : List (String × Row) :=
  (sortDescByTs rows).foldl addRowIfNew []

/-- `merge_current_data(analysis_rows)` (lines 55–76): the values of
`by_ticker` in insertion order. -/
def merge_current_data (rows : List Row) : List Row :=
  (merge_by_ticker rows).map (·.2)

/-- Membership test of validator.py lines 34 and 37:
`value in (None, "", "nan")`, with an absent key read as `None` by `.get`. -/
def isMissingField (v : Option Value) : Bool :=
  match v with
  | none => true
  | some .null => true
  | some (.str s) => decide (s = "") || decide (s = "nan")
  | some _ => false

/-- The counting loop of `validate_merged_rows` (lines 28–40), returning
`(missing_ticker, missing_price, valid)`. -/
def validateCounts : List Row → Nat × Nat × Nat
  | [] => (0, 0, 0)
  | r :: rest =>
    let c := validateCounts rest
    if isMissingField (alookup r "ticker_symbol") then (c.1 + 1, c.2.1, c.2.2)
    else if isMissingField (alookup r "stock_price") then (c.1, c.2.1 + 1, c.2.2)
    else (c.1, c.2.1, c.2.2 + 1)

/-- `ValidationSummary` (validator.py lines 12–22). -/
structure ValidationSummary : Type where
  total_rows : Nat
  valid_rows : Nat
  invalid_rows : Nat
  missing_ticker : Nat
  missing_price : Nat
  completeness_ratio : ℚ

/-- `validate_merged_rows(rows)` (lines 25–54); `Except.error` is the fatal
aggregate `DataValidationError`. -/
def validate_merged_rows (rows : List Row) : Except String ValidationSummary :=
  let c := validateCounts rows
  let total := rows.length
  if 0 < total ∧ c.2.2 = 0 then
    .error "All merged rows are invalid; cannot proceed with report generation."
  else
    .ok ⟨total, c.2.2, total - c.2.2, c.1, c.2.1,
      if total = 0 then 0 else (c.2.2 : ℚ) / (total : ℚ)⟩

/-- `IndicatorDefinition` (registry.py). -/
structure IndicatorDefinition : Type where
  name : String
  category : String

/-- `FeasibilityRecord` (feasibility.py lines 11–20). -/
structure FeasibilityRecord : Type where
  indicator : String
  category : String
  status : String
  source : String
  missing_data : List String
  notes : String

/-- One entry of `INDICATOR_REQUIREMENTS` (a required-field set and a source). -/
structure Requirement : Type where
  fields : List String
  source : String

/-- `INDICATOR_REQUIREMENTS` (feasibility.py lines 24–47). -/
def INDICATOR_REQUIREMENTS : List (String × Requirement) :=
  [("Stock Price", ⟨["stock_price"], "stockanalysis_stocks"⟩),
   ("Price Change 1D (%)", ⟨["stock_change"], "stockanalysis_stocks"⟩),
   ("Volume", ⟨["price_metrics.volume"], "stockanalysis_stocks"⟩),
   ("Market Cap", ⟨["overview_metrics.marketCap"], "stockanalysis_stocks"⟩),
   ("PE Ratio", ⟨["overview_metrics.pe_ratio"], "stockanalysis_stocks"⟩),
   ("PB Ratio", ⟨["overview_metrics.pb_ratio"], "stockanalysis_stocks"⟩),
   ("PS Ratio", ⟨["overview_metrics.ps_ratio"], "stockanalysis_stocks"⟩),
   ("Dividend Yield", ⟨["dividends_metrics.dividendYield"], "stockanalysis_stocks"⟩),
   ("52 Week Low", ⟨["price_metrics.low52"], "stockanalysis_stocks"⟩),
   ("52 Week High", ⟨["price_metrics.high52"], "stockanalysis_stocks"⟩),
   ("Price Change 1W", ⟨["historical_prices"], "stockanalysis_stocks"⟩),
   ("Price Change 1M", ⟨["historical_prices"], "stockanalysis_stocks"⟩),
   ("Price Change 3M", ⟨["historical_prices"], "stockanalysis_stocks"⟩),
   ("Total Return 1M", ⟨["performance_metrics.tr1m"], "stockanalysis_stocks"⟩),
   ("Total Return 1Y", ⟨["performance_metrics.tr1y"], "stockanalysis_stocks"⟩),
   ("Total Return 6M", ⟨["performance_metrics.tr6m"], "stockanalysis_stocks"⟩),
   ("Total Return YTD", ⟨["performance_metrics.trYTD"], "stockanalysis_stocks"⟩),
   ("Return CAGR 1Y", ⟨["historical_prices"], "stockanalysis_stocks"⟩),
   ("20-Day Moving Average", ⟨["historical_prices"], "stockanalysis_stocks"⟩),
   ("50-Day Moving Average", ⟨["historical_prices"], "stockanalysis_stocks"⟩),
   ("200-Day Moving Average", ⟨["historical_prices"], "stockanalysis_stocks"⟩),
   ("Relative Strength Index (RSI)", ⟨["historical_prices"], "stockanalysis_stocks"⟩)]

/-- `AVAILABLE_FIELD_HINTS` (feasibility.py lines 50–81). -/
def AVAILABLE_FIELD_HINTS : List (String × List String) :=
  [("stockanalysis_stocks",
    ["ticker_symbol", "company_name", "rank", "stock_price", "stock_change",
     "scraped_at", "overview_metrics", "performance_metrics", "dividends_metrics",
     "price_metrics", "profile_metrics", "overview_metrics.marketCap",
     "overview_metrics.revenue", "overview_metrics.revenueGrowth",
     "overview_metrics.pe_ratio", "overview_metrics.pb_ratio",
     "overview_metrics.ps_ratio", "dividends_metrics.dividendYield",
     "dividends_metrics.dps", "dividends_metrics.payoutRatio",
     "price_metrics.low52", "price_metrics.high52", "price_metrics.volume",
     "performance_metrics.tr1m", "performance_metrics.tr1y",
     "performance_metrics.tr6m", "performance_metrics.trYTD",
     "historical_prices"])]

/-- `sorted(...)` over field names (Python sorts strings by code points). -/
def sortedFields (fields : List String) : List String :=
  List.insertionSort (fun a b => charsLe a.data b.data = true) fields

/-- The per-indicator body of `analyze_feasibility` (lines 87–121). -/
def analyze_one (d : IndicatorDefinition) : FeasibilityRecord :=
  match alookup INDICATOR_REQUIREMENTS d.name with
  | none =>
    ⟨d.name, d.category, "not_calculable", "unknown",
     ["explicit field mapping not yet available"],
     "Needs additional mapped fields or financial statements."⟩
  | some req =>
    let available := (alookup AVAILABLE_FIELD_HINTS req.source).getD []
    let missing := sortedFields (req.fields.filter (fun f => !available.contains f))
    if missing = [] then
      ⟨d.name, d.category, "calculable", req.source, missing, "Required fields available."⟩
    else
      ⟨d.name, d.category, "partially_calculable", req.source, missing,
       "Some required fields are missing."⟩

/-- `analyze_feasibility(indicators)` (lines 84–122). -/
def analyze_feasibility (indicators : List IndicatorDefinition) : List FeasibilityRecord :=
  indicators.map analyze_one

/-- `summary[status] = summary.get(status, 0) + 1`. -/
def bumpCount : List (String × Nat) → String → List (String × Nat)
  | [], k => [(k, 1)]
  | kv :: rest, k => if kv.1 = k then (kv.1, kv.2 + 1) :: rest else kv :: bumpCount rest k

/-- `summarize_feasibility(records)` (lines 125–130). -/
def summarize_feasibility (records : List FeasibilityRecord) : List (String × Nat) :=
  records.foldl (fun s rec => bumpCount s rec.status)
    [("calculable", 0), ("partially_calculable", 0), ("not_calculable", 0)]

/-- `sum(summary.values())`. -/
def sumValues (l : List (String × Nat)) : Nat :=
  (l.map (·.2)).sum

/-- A 15-point historical series whose trailing-14 returns contain both a
+infinite and a −infinite entry (each zero price is followed by a non-zero
price, once positive and once negative), so the RSI gains and losses means
are both infinite and the emitted `rsi_14` is NaN. -/
def rsiNanHist : List HistRow :=
  [⟨"R", 0, Value.num 1⟩, ⟨"R", 1, Value.num 0⟩, ⟨"R", 2, Value.num 1⟩,
   ⟨"R", 3, Value.num 0⟩, ⟨"R", 4, Value.num (-1)⟩, ⟨"R", 5, Value.num 1⟩,
   ⟨"R", 6, Value.num 1⟩, ⟨"R", 7, Value.num 1⟩, ⟨"R", 8, Value.num 1⟩,
   ⟨"R", 9, Value.num 1⟩, ⟨"R", 10, Value.num 1⟩, ⟨"R", 11, Value.num 1⟩,
   ⟨"R", 12, Value.num 1⟩, ⟨"R", 13, Value.num 1⟩, ⟨"R", 14, Value.num 1⟩]

theorem alookup_aset_self {α : Type} (l : List (String × α)) (k : String) (v : α) :
    alookup (aset l k v) k = some v := by
  induction l with
  | nil => simp [aset, alookup]
  | cons kv rest ih =>
    by_cases h : kv.1 = k
    · simp [aset, alookup, h]
    · simp [aset, alookup, h, ih]

theorem alookup_aset_ne {α : Type} (l : List (String × α)) (k k' : String) (v : α)
    (h : k' ≠ k) : alookup (aset l k v) k' = alookup l k' := by
  induction l with
  | nil => simp [aset, alookup, Ne.symm h]
  | cons kv rest ih =>
    by_cases hk : kv.1 = k
    · simp [aset, alookup, hk, Ne.symm h]
    · simp [aset, alookup, hk, ih]

theorem hasKey_cons {α : Type} (kv : String × α) (l : List (String × α)) (k : String) :
    hasKey (kv :: l) k = (decide (kv.1 = k) || hasKey l k) := by
  simp [hasKey]

theorem hasKey_aset {α : Type} (l : List (String × α)) (k k' : String) (v : α) :
    hasKey (aset l k v) k' = (decide (k' = k) || hasKey l k') := by
  induction l with
  | nil =>
    by_cases h : k' = k
    · simp [aset, hasKey, h]
    · simp [aset, hasKey, h, Ne.symm h]
  | cons kv rest ih =>
    by_cases hk : kv.1 = k
    · by_cases h : k' = k
      · simp [aset, hasKey_cons, hk, h]
      · simp [aset, hasKey_cons, hk, h, Ne.symm h]
    · simp only [aset, hk, if_false, hasKey_cons, ih]
      cases hb : decide (kv.1 = k') <;> cases hc : decide (k' = k) <;> simp

theorem hasKey_stepSet (c : Bool) (k k' : String) (v : Value) (m : Row) :
    hasKey (stepSet c k v m) k' = ((c && decide (k' = k)) || hasKey m k') := by
  cases c <;> simp [stepSet, hasKey_aset]

theorem alookup_stepSet_ne (c : Bool) (k k' : String) (v : Value) (m : Row) (h : k' ≠ k) :
    alookup (stepSet c k v m) k' = alookup m k' := by
  cases c <;> simp [stepSet, alookup_aset_ne _ _ _ _ h]

theorem alookup_stepSet_pos (k : String) (v : Value) (m : Row) :
    alookup (stepSet true k v m) k = some v := by
  simp [stepSet, alookup_aset_self]

theorem sumValues_bumpCount (l : List (String × Nat)) (k : String) :
    sumValues (bumpCount l k) = sumValues l + 1 := by
  induction l with
  | nil => simp [bumpCount, sumValues]
  | cons kv rest ih =>
    by_cases h : kv.1 = k
    · simp [bumpCount, sumValues, h]
      ring
    · simp [bumpCount, sumValues, h] at ih ⊢
      omega

theorem sumValues_foldl_bump (recs : List FeasibilityRecord) (init : List (String × Nat)) :
    sumValues (recs.foldl (fun s rec => bumpCount s rec.status) init) =
      sumValues init + recs.length := by
  induction recs generalizing init with
  | nil => simp
  | cons r rest ih =>
    simp [List.foldl_cons, ih, sumValues_bumpCount]
    omega

/-- C9: for every record list, the status counts returned by
`summarize_feasibility` sum to the number of records, and in particular to
the catalog length when the records come from `analyze_feasibility`. -/
theorem summarize_feasibility_totals (records : List FeasibilityRecord)
    (defs : List IndicatorDefinition) :
    sumValues (summarize_feasibility records) = records.length ∧
    sumValues (summarize_feasibility (analyze_feasibility defs)) = defs.length := by
  constructor
  · unfold summarize_feasibility
    rw [sumValues_foldl_bump]
    simp [sumValues]
  · unfold summarize_feasibility analyze_feasibility
    rw [sumValues_foldl_bump]
    simp [sumValues]

theorem sortedFields_eq_nil_iff (l : List String) : sortedFields l = [] ↔ l = [] := by
  have h := (List.perm_insertionSort (fun a b => charsLe a.data b.data = true) l).length_eq
  unfold sortedFields
  constructor
  · intro hs
    rw [hs] at h
    exact List.length_eq_zero.mp h.symm
  · intro hl
    subst hl
    rfl

/-- C4: a catalog entry is classified `not_calculable` by the feasibility
analysis exactly when its name has no entry in `INDICATOR_REQUIREMENTS`, and
then carries source `"unknown"` and the literal missing-data note; a mapped
indicator is always `calculable` (no required field missing) or
`partially_calculable` (some missing), never `not_calculable`. -/
theorem analyze_feasibility_status_classification (defs : List IndicatorDefinition)
    (d : IndicatorDefinition) :
    analyze_feasibility defs = defs.map analyze_one ∧
    ((analyze_one d).status = "not_calculable" ↔
      alookup INDICATOR_REQUIREMENTS d.name = none) ∧
    (alookup INDICATOR_REQUIREMENTS d.name = none →
      (analyze_one d).source = "unknown" ∧
      (analyze_one d).missing_data = ["explicit field mapping not yet available"]) ∧
    (∀ req, alookup INDICATOR_REQUIREMENTS d.name = some req →
      ((analyze_one d).status = "calculable" ∨
        (analyze_one d).status = "partially_calculable") ∧
      ((analyze_one d).status = "calculable" ↔
        req.fields.filter
          (fun f => !(((alookup AVAILABLE_FIELD_HINTS req.source).getD []).contains f)) = [])) := by
  refine ⟨rfl, ?_, ?_, ?_⟩
  · cases h : alookup INDICATOR_REQUIREMENTS d.name with
    | none => simp [analyze_one, h]
    | some req =>
      simp only [analyze_one, h]
      split <;> simp
  · intro h
    simp [analyze_one, h]
  · intro req h
    simp only [analyze_one, h]
    split
    · rename_i hm
      refine ⟨Or.inl rfl, ?_⟩
      simp only [sortedFields_eq_nil_iff] at hm
      exact iff_of_true rfl hm
    · rename_i hm
      refine ⟨Or.inr rfl, ?_⟩
      simp only [sortedFields_eq_nil_iff] at hm
      exact iff_of_false (by simp) hm

/-- C4 witness: `"EBITDA"` is unmapped and gets the literal not-calculable
record; the mapped `"PE Ratio"` is calculable. -/
theorem analyze_feasibility_status_classification_witness :
    alookup INDICATOR_REQUIREMENTS "EBITDA" = none ∧
    (analyze_one ⟨"EBITDA", "Profitability"⟩).status = "not_calculable" ∧
    (analyze_one ⟨"EBITDA", "Profitability"⟩).source = "unknown" ∧
    (analyze_one ⟨"EBITDA", "Profitability"⟩).missing_data =
      ["explicit field mapping not yet available"] ∧
    (analyze_one ⟨"PE Ratio", "Valuation Ratios"⟩).status = "calculable" := by
  have h1 : alookup INDICATOR_REQUIREMENTS "EBITDA" = none := by rfl
  have h2 : alookup INDICATOR_REQUIREMENTS "PE Ratio" =
      some ⟨["overview_metrics.pe_ratio"], "stockanalysis_stocks"⟩ := by rfl
  have hc := analyze_feasibility_status_classification [] ⟨"EBITDA", "Profitability"⟩
  have hp := analyze_feasibility_status_classification [] ⟨"PE Ratio", "Valuation Ratios"⟩
  refine ⟨h1, hc.2.1.mpr h1, (hc.2.2.1 h1).1, (hc.2.2.1 h1).2, ?_⟩
  exact ((hp.2.2.2 _ h2).2).mpr (by rfl)

/-- C8: nested-metric extraction tries the candidate key spellings in order,
for each taking an exact lookup first and then the normalized
(case/punctuation-insensitive) lookup, returning the first non-null value;
an absent sub-mapping (the empty payload) yields null, and the function is
total (never an error). -/
theorem extract_metric_spec (payload : List (String × Value)) (keys : List String) :
    _extract_metric payload keys =
      keys.findSome? (fun k =>
        (getNonNull payload k).or (getNonNull (normalizedOf payload) (_norm_key k))) ∧
    _extract_metric [] keys = none := by
  constructor
  · unfold _extract_metric
    induction keys with
    | nil => rfl
    | cons k ks ih =>
      simp only [extractLoop, List.findSome?_cons]
      cases h1 : getNonNull payload k with
      | some v => simp [h1, Option.or]
      | none =>
        cases h2 : getNonNull (normalizedOf payload) (_norm_key k) with
        | some v => simp [h1, h2, Option.or]
        | none => simp [h1, h2, Option.or, ih]
  · induction keys with
    | nil => rfl
    | cons k ks ih =>
      simpa [_extract_metric, extractLoop, getNonNull, alookup, normalizedOf] using ih

theorem latestPrice?_eq_none_iff (row : Row) (history : List HistRow) :
    latestPrice? row history = none ↔
      (_to_float (alookup row "stock_price") = none ∧
        history.getLast?.bind (fun h => pyFloat? h.stock_price) = none) := by
  unfold latestPrice?
  cases h1 : _to_float (alookup row "stock_price") with
  | some q => simp [h1]
  | none =>
    cases h2 : history.getLast? with
    | none => simp [h2]
    | some h => simp [h2]

/-- C1 counterexample: a row with a non-blank ticker and a usable
`stock_price`, paired with an empty historical table, makes
`calculate_for_row` raise the uncaught pandas `KeyError: 'date'` of
`history.sort_values("date")` rather than the row-scoped calculation error,
and `calculate_batch` propagates it instead of skipping the row. -/
theorem calculate_for_row_error_counterexample :
    trimmedTicker [("ticker_symbol", Value.str "A"), ("stock_price", Value.num 5)] ≠ "" ∧
    _to_float (alookup [("ticker_symbol", Value.str "A"), ("stock_price", Value.num 5)]
      "stock_price") = some 5 ∧
    calculate_for_row [("ticker_symbol", Value.str "A"), ("stock_price", Value.num 5)] [] =
      Except.error (PyError.keyError "date") ∧
    calculate_batch [[("ticker_symbol", Value.str "A"), ("stock_price", Value.num 5)]] [] =
      Except.error (PyError.keyError "date") :=
  ⟨by decide, rfl, rfl, rfl⟩

/-- C1 (amended): `calculate_for_row` fails with the row-scoped calculation
error exactly when the trimmed ticker is empty, or the historical table is
non-empty and no usable latest price can be obtained from the row's
`stock_price` or the last point of the ticker's historical series; it
instead raises the uncaught `KeyError` exactly on a non-blank ticker with
an empty historical table, and the uncaught `ZeroDivisionError` exactly
when a latest price exists but the ticker's numeric series has an all-time
high of zero; and when no row raises an uncaught exception,
`calculate_batch` returns exactly the successful per-row results in input
order, silently skipping the calculation-error rows. -/
theorem calculate_for_row_error_iff (row : Row) (historical : List HistRow)
    (rows : List Row) :
    (isCalcError (calculate_for_row row historical) = true ↔
      (trimmedTicker row = "" ∨
        (historical ≠ [] ∧ _to_float (alookup row "stock_price") = none ∧
          (histFor historical (trimmedTicker row)).getLast?.bind
            (fun h => pyFloat? h.stock_price) = none))) ∧
    (calculate_for_row row historical = Except.error (PyError.keyError "date") ↔
      (trimmedTicker row ≠ "" ∧ historical = [])) ∧
    (calculate_for_row row historical = Except.error PyError.zeroDivisionError ↔
      (trimmedTicker row ≠ "" ∧ historical ≠ [] ∧
        latestPrice? row (histFor historical (trimmedTicker row)) ≠ none ∧
        listMax? (historyPrices (histFor historical (trimmedTicker row))) = some 0)) ∧
    ((∀ r ∈ rows, isUncaughtError (calculate_for_row r historical) = false) →
      calculate_batch rows historical =
        Except.ok (rows.filterMap (fun r => (calculate_for_row r historical).toOption))) := by
  refine ⟨?_, ?_, ?_, ?_⟩
  · unfold calculate_for_row
    by_cases ht : trimmedTicker row = ""
    · simp [ht, isCalcError]
    · rw [if_neg ht]
      by_cases he : historical.isEmpty
      · have h0 : historical = [] := List.isEmpty_iff.mp he
        simp [he, isCalcError, ht, h0]
      · have hne : historical ≠ [] := by simpa [List.isEmpty_iff] using he
        rw [if_neg he]
        split
        next hl =>
          simp [isCalcError, ht, hne, (latestPrice?_eq_none_iff _ _).mp hl]
        next q hl =>
          have hnotnone :
              ¬(_to_float (alookup row "stock_price") = none ∧
                (histFor historical (trimmedTicker row)).getLast?.bind
                  (fun h => pyFloat? h.stock_price) = none) := by
            intro hh
            rw [(latestPrice?_eq_none_iff _ _).mpr hh] at hl
            exact absurd hl (by simp)
          by_cases hz :
              listMax? (historyPrices (histFor historical (trimmedTicker row))) = some 0
          · rw [if_pos hz]
            simp only [isCalcError]
            constructor
            · intro hh
              exact absurd hh (by simp)
            · rintro (hh | ⟨-, hh1, hh2⟩)
              · exact absurd hh ht
              · exact absurd ⟨hh1, hh2⟩ hnotnone
          · rw [if_neg hz]
            simp only [isCalcError]
            constructor
            · intro hh
              exact absurd hh (by simp)
            · rintro (hh | ⟨-, hh1, hh2⟩)
              · exact absurd hh ht
              · exact absurd ⟨hh1, hh2⟩ hnotnone
  · unfold calculate_for_row
    by_cases ht : trimmedTicker row = ""
    · simp [ht]
    · rw [if_neg ht]
      by_cases he : historical.isEmpty
      · have h0 : historical = [] := List.isEmpty_iff.mp he
        simp [he, ht, h0]
      · have hne : historical ≠ [] := by simpa [List.isEmpty_iff] using he
        rw [if_neg he]
        split
        next hl => simp [hne]
        next q hl =>
          by_cases hz :
              listMax? (historyPrices (histFor historical (trimmedTicker row))) = some 0
          · rw [if_pos hz]
            simp [hne]
          · rw [if_neg hz]
            simp [hne]
  · unfold calculate_for_row
    by_cases ht : trimmedTicker row = ""
    · simp [ht]
    · rw [if_neg ht]
      by_cases he : historical.isEmpty
      · have h0 : historical = [] := List.isEmpty_iff.mp he
        simp [he, ht, h0]
      · have hne : historical ≠ [] := by simpa [List.isEmpty_iff] using he
        rw [if_neg he]
        split
        next hl => simp [ht, hne, hl]
        next q hl =>
          by_cases hz :
              listMax? (historyPrices (histFor historical (trimmedTicker row))) = some 0
          · rw [if_pos hz]
            simp [ht, hne, hl, hz]
          · rw [if_neg hz]
            simp [ht, hne, hl, hz]
  · intro h
    induction rows with
    | nil => rfl
    | cons r rest ih =>
      have hr := h r (by simp)
      simp only [calculate_batch, List.filterMap_cons]
      cases hc : calculate_for_row r historical with
      | ok m =>
        rw [ih (fun x hx => h x (by simp [hx]))]
        simp [Except.toOption, Except.map]
      | error e =>
        cases e with
        | calcError msg =>
          simpa [Except.toOption] using ih (fun x hx => h x (by simp [hx]))
        | keyError k =>
          rw [hc] at hr
          exact absurd hr (by simp [isUncaughtError])
        | zeroDivisionError =>
          rw [hc] at hr
          exact absurd hr (by simp [isUncaughtError])

/-- C1 witness: with a one-ticker table, a blank-ticker row raises the
calculation error, and a batch holding one priced row computes it, the
batch keeping exactly the successful rows. -/
theorem calculate_for_row_error_iff_witness :
    isCalcError (calculate_for_row [("ticker_symbol", Value.str " ")]
      [⟨"C", 0, Value.num 2⟩]) = true ∧
    calculate_batch [[("ticker_symbol", Value.str "C"), ("stock_price", Value.num 4)]]
      [⟨"C", 0, Value.num 2⟩] =
      Except.ok ([[("ticker_symbol", Value.str "C"), ("stock_price", Value.num 4)]].filterMap
        (fun r => (calculate_for_row r [⟨"C", 0, Value.num 2⟩]).toOption)) := by
  have h1 := calculate_for_row_error_iff [("ticker_symbol", Value.str " ")]
    [⟨"C", 0, Value.num 2⟩] []
  have h2 := calculate_for_row_error_iff
    [("ticker_symbol", Value.str "C"), ("stock_price", Value.num 4)]
    [⟨"C", 0, Value.num 2⟩]
    [[("ticker_symbol", Value.str "C"), ("stock_price", Value.num 4)]]
  refine ⟨h1.1.mpr (Or.inl (by decide)), h2.2.2.2 ?_⟩
  intro r hr
  simp only [List.mem_singleton] at hr
  subst hr
  rfl

/-- C7 counterexample: the empty merged batch contains zero valid rows, yet
`validate_merged_rows` returns a summary instead of raising (the raise is
guarded by `total > 0`); and a batch whose rows lack both a usable price
and a historical fallback does not return the empty list when the
historical table is empty — the per-row pandas `KeyError` propagates
instead. -/
theorem validate_merged_rows_empty_counterexample :
    exceptIsOk (validate_merged_rows []) = true ∧ (validateCounts []).2.2 = 0 ∧
    _to_float (alookup [("ticker_symbol", Value.str "A")] "stock_price") = none ∧
    calculate_batch [[("ticker_symbol", Value.str "A")]] [] =
      Except.error (PyError.keyError "date") :=
  ⟨rfl, rfl, rfl, rfl⟩

/-- C7 (amended): `validate_merged_rows` raises the fatal aggregate error
exactly when the merged batch is non-empty and contains zero valid rows
(every row failing the ticker or price check); when at least one row is
valid it returns a summary without raising; and, provided the historical
table is non-empty, `calculate_batch` on rows that all lack both a usable
`stock_price` and a historical fallback price returns the empty list
rather than raising. -/
theorem validate_merged_rows_error_iff (rows : List Row) (historical : List HistRow) :
    (exceptIsOk (validate_merged_rows rows) = false ↔
      (rows ≠ [] ∧ (validateCounts rows).2.2 = 0)) ∧
    (historical ≠ [] →
      (∀ r ∈ rows, _to_float (alookup r "stock_price") = none ∧
        (histFor historical (trimmedTicker r)).getLast?.bind
          (fun h => pyFloat? h.stock_price) = none) →
      calculate_batch rows historical = Except.ok []) := by
  constructor
  · unfold validate_merged_rows
    by_cases h : 0 < rows.length ∧ (validateCounts rows).2.2 = 0
    · simp only [h, if_true, exceptIsOk]
      simp only [List.length_pos] at h
      simp [h.1, h.2]
    · simp only [h, if_false, exceptIsOk]
      constructor
      · intro hh
        exact absurd hh (by simp)
      · intro hh
        rw [← List.length_pos] at hh
        exact absurd ⟨hh.1, hh.2⟩ h
  · intro hhist h
    induction rows with
    | nil => rfl
    | cons r rest ih =>
      have hr := h r (by simp)
      have hnone : latestPrice? r (histFor historical (trimmedTicker r)) = none :=
        (latestPrice?_eq_none_iff _ _).mpr hr
      have hcalc : calculate_for_row r historical =
          Except.error (.calcError ("Missing latest price for " ++ trimmedTicker r ++ ".")) ∨
          calculate_for_row r historical =
            Except.error (.calcError "Missing ticker symbol in merged row.") := by
        unfold calculate_for_row
        by_cases ht : trimmedTicker r = ""
        · right
          rw [if_pos ht]
        · left
          rw [if_neg ht, if_neg (by simpa [List.isEmpty_iff] using hhist), hnone]
      simp only [calculate_batch]
      rcases hcalc with hc | hc <;> rw [hc] <;>
        exact ih (fun x hx => h x (by simp [hx]))

/-- C7 witness: a one-row batch lacking a price is rejected by the
validator; with a non-empty historical table having no rows for that
ticker, its batch calculation returns the empty list. -/
theorem validate_merged_rows_error_iff_witness :
    exceptIsOk (validate_merged_rows [[("ticker_symbol", Value.str "A")]]) = false ∧
    calculate_batch [[("ticker_symbol", Value.str "A")]] [⟨"Z", 0, Value.num 1⟩] =
      Except.ok [] := by
  have h := validate_merged_rows_error_iff [[("ticker_symbol", Value.str "A")]]
    [⟨"Z", 0, Value.num 1⟩]
  refine ⟨h.1.mpr ⟨by simp, by rfl⟩, h.2 (by simp) ?_⟩
  intro r hr
  simp only [List.mem_singleton] at hr
  subst hr
  exact ⟨rfl, rfl⟩

theorem hasKey_baseMetrics (row : Row) (ticker : String) (latest : ℚ) (k : String)
    (h1 : k ≠ "ticker_symbol") (h2 : k ≠ "company_name") (h3 : k ≠ "stock_price")
    (h4 : k ≠ "stock_change") :
    hasKey (baseMetrics row ticker latest) k = false := by
  simp [baseMetrics, hasKey, Ne.symm h1, Ne.symm h2, Ne.symm h3, Ne.symm h4]

theorem alookup_baseMetrics_other (row : Row) (ticker : String) (latest : ℚ) (k : String)
    (h1 : k ≠ "ticker_symbol") (h2 : k ≠ "company_name") (h3 : k ≠ "stock_price")
    (h4 : k ≠ "stock_change") :
    alookup (baseMetrics row ticker latest) k = none := by
  simp [baseMetrics, alookup, Ne.symm h1, Ne.symm h2, Ne.symm h3, Ne.symm h4]

theorem hasKey_addPrimary1d (c : Option ℚ) (latest : ℚ) (m : Row) (k : String)
    (hk : k ≠ "price_change_1d_pct") :
    hasKey (addPrimary1d c latest m) k = hasKey m k := by
  cases c with
  | none => rfl
  | some q =>
    simp only [addPrimary1d]
    split_ifs <;> simp [hasKey_aset, hk]

theorem alookup_addPrimary1d_ne (c : Option ℚ) (latest : ℚ) (m : Row) (k : String)
    (hk : k ≠ "price_change_1d_pct") :
    alookup (addPrimary1d c latest m) k = alookup m k := by
  cases c with
  | none => rfl
  | some q =>
    simp only [addPrimary1d]
    split_ifs <;> simp [alookup_aset_ne _ _ _ _ hk]

theorem hasKey_hist_1w (latest : ℚ) (hp : List ℚ) (m : Row)
    (hm : hasKey m "price_change_1w_pct" = false) :
    hasKey (addHistoryMetrics latest hp m) "price_change_1w_pct" = decide (5 ≤ hp.length) := by
  unfold addHistoryMetrics
  simp [hasKey_stepSet, hasKey_aset, hm]

theorem hasKey_hist_1m (latest : ℚ) (hp : List ℚ) (m : Row)
    (hm : hasKey m "price_change_1m_pct" = false) :
    hasKey (addHistoryMetrics latest hp m) "price_change_1m_pct" = decide (22 ≤ hp.length) := by
  unfold addHistoryMetrics
  simp [hasKey_stepSet, hasKey_aset, hm]

theorem hasKey_hist_ma20 (latest : ℚ) (hp : List ℚ) (m : Row)
    (hm : hasKey m "moving_average_20d" = false) :
    hasKey (addHistoryMetrics latest hp m) "moving_average_20d" = decide (22 ≤ hp.length) := by
  unfold addHistoryMetrics
  simp [hasKey_stepSet, hasKey_aset, hm]

theorem hasKey_hist_ma50 (latest : ℚ) (hp : List ℚ) (m : Row)
    (hm : hasKey m "moving_average_50d" = false) :
    hasKey (addHistoryMetrics latest hp m) "moving_average_50d" = decide (50 ≤ hp.length) := by
  unfold addHistoryMetrics
  simp [hasKey_stepSet, hasKey_aset, hm]

theorem hasKey_hist_ma200 (latest : ℚ) (hp : List ℚ) (m : Row)
    (hm : hasKey m "moving_average_200d" = false) :
    hasKey (addHistoryMetrics latest hp m) "moving_average_200d" = decide (200 ≤ hp.length) := by
  unfold addHistoryMetrics
  simp [hasKey_stepSet, hasKey_aset, hm]

theorem hasKey_hist_ath (latest : ℚ) (hp : List ℚ) (m : Row) :
    hasKey (addHistoryMetrics latest hp m) "all_time_high" = true := by
  unfold addHistoryMetrics
  simp [hasKey_stepSet, hasKey_aset]

theorem hasKey_hist_atl (latest : ℚ) (hp : List ℚ) (m : Row) :
    hasKey (addHistoryMetrics latest hp m) "all_time_low" = true := by
  unfold addHistoryMetrics
  simp [hasKey_stepSet, hasKey_aset]

theorem hasKey_hist_dist (latest : ℚ) (hp : List ℚ) (m : Row) :
    hasKey (addHistoryMetrics latest hp m) "distance_from_ath_pct" = true := by
  unfold addHistoryMetrics
  simp [hasKey_stepSet, hasKey_aset]

theorem hasKey_hist_rsi (latest : ℚ) (hp : List ℚ) (m : Row)
    (hm : hasKey m "rsi_14" = false) :
    hasKey (addHistoryMetrics latest hp m) "rsi_14" = decide (14 ≤ (pctChange hp).length) := by
  unfold addHistoryMetrics
  simp [hasKey_stepSet, hasKey_aset, hm]

theorem hasKey_hist_cagr (latest : ℚ) (hp : List ℚ) (m : Row)
    (hm : hasKey m "return_cagr" = false) :
    hasKey (addHistoryMetrics latest hp m) "return_cagr" =
      (decide (252 ≤ hp.length) &&
        (decide (0 < hp.headD 0) && decide (0 < (hp.length : ℚ) / 252))) := by
  unfold addHistoryMetrics
  simp [hasKey_stepSet, hasKey_aset, hm]

theorem alookup_stepSet_self (c : Bool) (k : String) (v : Value) (m : Row) :
    alookup (stepSet c k v m) k = if c = true then some v else alookup m k := by
  cases c <;> simp [stepSet, alookup_aset_self]

theorem alookup_hist_rsi (latest : ℚ) (hp : List ℚ) (m : Row) :
    alookup (addHistoryMetrics latest hp m) "rsi_14" =
      if 14 ≤ (pctChange hp).length then some (pfToValue (rsiOf (pctChange hp)))
      else alookup m "rsi_14" := by
  unfold addHistoryMetrics
  rw [alookup_stepSet_ne _ _ _ _ _ (by decide), alookup_stepSet_self]
  by_cases h14 : 14 ≤ (pctChange hp).length
  · rw [if_pos (decide_eq_true h14), if_pos h14]
  · rw [if_neg (by simpa using h14), if_neg h14]
    rw [alookup_aset_ne _ _ _ _ (by decide), alookup_aset_ne _ _ _ _ (by decide),
      alookup_aset_ne _ _ _ _ (by decide), alookup_stepSet_ne _ _ _ _ _ (by decide),
      alookup_stepSet_ne _ _ _ _ _ (by decide), alookup_stepSet_ne _ _ _ _ _ (by decide),
      alookup_stepSet_ne _ _ _ _ _ (by decide), alookup_stepSet_ne _ _ _ _ _ (by decide),
      alookup_stepSet_ne _ _ _ _ _ (by decide)]

theorem hasKey_hist_other (latest : ℚ) (hp : List ℚ) (m : Row) (k : String)
    (h1 : k ≠ "price_change_1d_pct") (h2 : k ≠ "price_change_1w_pct")
    (h3 : k ≠ "price_change_1m_pct") (h4 : k ≠ "moving_average_20d")
    (h5 : k ≠ "moving_average_50d") (h6 : k ≠ "moving_average_200d")
    (h7 : k ≠ "all_time_high") (h8 : k ≠ "all_time_low")
    (h9 : k ≠ "distance_from_ath_pct") (h10 : k ≠ "rsi_14") (h11 : k ≠ "return_cagr") :
    hasKey (addHistoryMetrics latest hp m) k = hasKey m k := by
  unfold addHistoryMetrics
  simp [hasKey_stepSet, hasKey_aset, h1, h2, h3, h4, h5, h6, h7, h8, h9, h10, h11]

theorem alookup_hist_other (latest : ℚ) (hp : List ℚ) (m : Row) (k : String)
    (h1 : k ≠ "price_change_1d_pct") (h2 : k ≠ "price_change_1w_pct")
    (h3 : k ≠ "price_change_1m_pct") (h4 : k ≠ "moving_average_20d")
    (h5 : k ≠ "moving_average_50d") (h6 : k ≠ "moving_average_200d")
    (h7 : k ≠ "all_time_high") (h8 : k ≠ "all_time_low")
    (h9 : k ≠ "distance_from_ath_pct") (h10 : k ≠ "rsi_14") (h11 : k ≠ "return_cagr") :
    alookup (addHistoryMetrics latest hp m) k = alookup m k := by
  unfold addHistoryMetrics
  rw [alookup_stepSet_ne _ _ _ _ _ h11, alookup_stepSet_ne _ _ _ _ _ h10,
    alookup_aset_ne _ _ _ _ h9, alookup_aset_ne _ _ _ _ h8, alookup_aset_ne _ _ _ _ h7,
    alookup_stepSet_ne _ _ _ _ _ h6, alookup_stepSet_ne _ _ _ _ _ h5,
    alookup_stepSet_ne _ _ _ _ _ h4, alookup_stepSet_ne _ _ _ _ _ h3,
    alookup_stepSet_ne _ _ _ _ _ h2, alookup_stepSet_ne _ _ _ _ _ h1]

theorem alookup_addNested_self (row : Row) (m : Row) :
    alookup (addNestedMetrics row m) "market_cap" =
      some (valOpt (_extract_metric (subdict row "overview_metrics")
        ["marketCap", "market_cap", "Market Cap"])) ∧
    alookup (addNestedMetrics row m) "revenue" =
      some (valOpt (_extract_metric (subdict row "overview_metrics") ["revenue", "Revenue"])) ∧
    alookup (addNestedMetrics row m) "pe_ratio" =
      some (valOpt (_extract_metric (subdict row "overview_metrics")
        ["peRatio", "pe_ratio", "PE Ratio"])) ∧
    alookup (addNestedMetrics row m) "pb_ratio" =
      some (valOpt (_extract_metric (subdict row "overview_metrics")
        ["pbRatio", "pb_ratio", "PB Ratio"])) ∧
    alookup (addNestedMetrics row m) "ps_ratio" =
      some (valOpt (_extract_metric (subdict row "overview_metrics")
        ["psRatio", "ps_ratio", "PS Ratio"])) ∧
    alookup (addNestedMetrics row m) "dividend_yield" =
      some (valOpt (_extract_metric (subdict row "dividends_metrics")
        ["dividendYield", "dividend_yield", "Dividend Yield"])) ∧
    alookup (addNestedMetrics row m) "week_52_low" =
      some (valOpt (_extract_metric (subdict row "price_metrics")
        ["low52", "52 Week Low", "52_week_low"])) ∧
    alookup (addNestedMetrics row m) "week_52_high" =
      some (valOpt (_extract_metric (subdict row "price_metrics")
        ["high52", "52 Week High", "52_week_high"])) ∧
    alookup (addNestedMetrics row m) "total_return_1m" =
      some (valOpt (_extract_metric (subdict row "performance_metrics")
        ["tr1m", "Total Return 1M"])) ∧
    alookup (addNestedMetrics row m) "total_return_1y" =
      some (valOpt (_extract_metric (subdict row "performance_metrics")
        ["tr1y", "Total Return 1Y"])) := by
  unfold addNestedMetrics
  refine ⟨?_, ?_, ?_, ?_, ?_, ?_, ?_, ?_, ?_, ?_⟩ <;>
    simp [alookup_aset_ne, alookup_aset_self]

theorem hasKey_addNested_other (row : Row) (m : Row) (k : String)
    (h1 : k ≠ "market_cap") (h2 : k ≠ "revenue") (h3 : k ≠ "pe_ratio")
    (h4 : k ≠ "pb_ratio") (h5 : k ≠ "ps_ratio") (h6 : k ≠ "dividend_yield")
    (h7 : k ≠ "week_52_low") (h8 : k ≠ "week_52_high") (h9 : k ≠ "total_return_1m")
    (h10 : k ≠ "total_return_1y") :
    hasKey (addNestedMetrics row m) k = hasKey m k := by
  unfold addNestedMetrics
  simp [hasKey_aset, h1, h2, h3, h4, h5, h6, h7, h8, h9, h10]

theorem alookup_addNested_other (row : Row) (m : Row) (k : String)
    (h1 : k ≠ "market_cap") (h2 : k ≠ "revenue") (h3 : k ≠ "pe_ratio")
    (h4 : k ≠ "pb_ratio") (h5 : k ≠ "ps_ratio") (h6 : k ≠ "dividend_yield")
    (h7 : k ≠ "week_52_low") (h8 : k ≠ "week_52_high") (h9 : k ≠ "total_return_1m")
    (h10 : k ≠ "total_return_1y") :
    alookup (addNestedMetrics row m) k = alookup m k := by
  unfold addNestedMetrics
  rw [alookup_aset_ne _ _ _ _ h10, alookup_aset_ne _ _ _ _ h9, alookup_aset_ne _ _ _ _ h8,
    alookup_aset_ne _ _ _ _ h7, alookup_aset_ne _ _ _ _ h6, alookup_aset_ne _ _ _ _ h5,
    alookup_aset_ne _ _ _ _ h4, alookup_aset_ne _ _ _ _ h3, alookup_aset_ne _ _ _ _ h2,
    alookup_aset_ne _ _ _ _ h1]

theorem hasKey_baseMetrics_self (row : Row) (ticker : String) (latest : ℚ) :
    hasKey (baseMetrics row ticker latest) "ticker_symbol" = true ∧
    hasKey (baseMetrics row ticker latest) "company_name" = true ∧
    hasKey (baseMetrics row ticker latest) "stock_price" = true ∧
    hasKey (baseMetrics row ticker latest) "stock_change" = true :=
  ⟨rfl, rfl, rfl, rfl⟩

theorem calculate_for_row_ok_inv (row : Row) (historical : List HistRow) (m : Row)
    (h : calculate_for_row row historical = Except.ok m) :
    trimmedTicker row ≠ "" ∧ historical ≠ [] ∧
    ∃ latest, latestPrice? row (histFor historical (trimmedTicker row)) = some latest ∧
      listMax? (historyPrices (histFor historical (trimmedTicker row))) ≠ some 0 ∧
      m = buildMetrics row (histFor historical (trimmedTicker row)) latest := by
  unfold calculate_for_row at h
  by_cases ht : trimmedTicker row = ""
  · rw [if_pos ht] at h
    exact absurd h (by simp)
  · rw [if_neg ht] at h
    by_cases he : historical.isEmpty
    · rw [if_pos he] at h
      exact absurd h (by simp)
    · rw [if_neg he] at h
      refine ⟨ht, by simpa [List.isEmpty_iff] using he, ?_⟩
      revert h
      split
      · intro h
        exact absurd h (by simp)
      next q hl =>
        by_cases hz :
            listMax? (historyPrices (histFor historical (trimmedTicker row))) = some 0
        · rw [if_pos hz]
          intro h
          exact absurd h (by simp)
        · rw [if_neg hz]
          intro h
          simp only [Except.ok.injEq] at h
          exact ⟨q, hl, hz, h.symm⟩

/-- C2: in every successful `calculate_for_row` output each history-gated
field is present exactly when its minimum-history precondition holds:
1-week change iff ≥ 5 usable numeric historical prices, 1-month change and
20-day moving average iff ≥ 22, 50-day iff ≥ 50, 200-day iff ≥ 200, the
all-time-high/low and ATH-distance fields iff the ticker's historical
series is non-empty, and CAGR iff ≥ 252 prices with a positive first price;
failing a gate omits only that field. -/
theorem calculate_for_row_history_gates (row : Row) (historical : List HistRow) (m : Row)
    (h : calculate_for_row row historical = Except.ok m) :
    (hasKey m "price_change_1w_pct" = true ↔
      5 ≤ (historyPrices (histFor historical (trimmedTicker row))).length) ∧
    (hasKey m "price_change_1m_pct" = true ↔
      22 ≤ (historyPrices (histFor historical (trimmedTicker row))).length) ∧
    (hasKey m "moving_average_20d" = true ↔
      22 ≤ (historyPrices (histFor historical (trimmedTicker row))).length) ∧
    (hasKey m "moving_average_50d" = true ↔
      50 ≤ (historyPrices (histFor historical (trimmedTicker row))).length) ∧
    (hasKey m "moving_average_200d" = true ↔
      200 ≤ (historyPrices (histFor historical (trimmedTicker row))).length) ∧
    (hasKey m "all_time_high" = true ↔ histFor historical (trimmedTicker row) ≠ []) ∧
    (hasKey m "all_time_low" = true ↔ histFor historical (trimmedTicker row) ≠ []) ∧
    (hasKey m "distance_from_ath_pct" = true ↔ histFor historical (trimmedTicker row) ≠ []) ∧
    (hasKey m "return_cagr" = true ↔
      (252 ≤ (historyPrices (histFor historical (trimmedTicker row))).length ∧
        0 < (historyPrices (histFor historical (trimmedTicker row))).headD 0)) := by
  obtain ⟨ht, hhist, latest, hl, hmax, hm⟩ := calculate_for_row_ok_inv row historical m h
  subst hm
  unfold buildMetrics histBlock
  by_cases he : (histFor historical (trimmedTicker row)).isEmpty
  · rw [if_pos he]
    have hhist : histFor historical (trimmedTicker row) = [] := List.isEmpty_iff.mp he
    rw [hhist]
    refine ⟨?_, ?_, ?_, ?_, ?_, ?_, ?_, ?_, ?_⟩ <;>
      simp [hasKey_addNested_other, hasKey_addPrimary1d, hasKey_baseMetrics, historyPrices]
  · rw [if_neg he]
    have hne : histFor historical (trimmedTicker row) ≠ [] := by
      simpa [List.isEmpty_iff] using he
    refine ⟨?_, ?_, ?_, ?_, ?_, ?_, ?_, ?_, ?_⟩
    · simp [hasKey_addNested_other, hasKey_hist_1w, hasKey_addPrimary1d, hasKey_baseMetrics]
    · simp [hasKey_addNested_other, hasKey_hist_1m, hasKey_addPrimary1d, hasKey_baseMetrics]
    · simp [hasKey_addNested_other, hasKey_hist_ma20, hasKey_addPrimary1d, hasKey_baseMetrics]
    · simp [hasKey_addNested_other, hasKey_hist_ma50, hasKey_addPrimary1d, hasKey_baseMetrics]
    · simp [hasKey_addNested_other, hasKey_hist_ma200, hasKey_addPrimary1d, hasKey_baseMetrics]
    · simp [hasKey_addNested_other, hasKey_hist_ath, hne]
    · simp [hasKey_addNested_other, hasKey_hist_atl, hne]
    · simp [hasKey_addNested_other, hasKey_hist_dist, hne]
    · rw [hasKey_addNested_other _ _ _ (by decide) (by decide) (by decide) (by decide)
        (by decide) (by decide) (by decide) (by decide) (by decide) (by decide)]
      rw [hasKey_hist_cagr _ _ _ (by
        simp [hasKey_addPrimary1d, hasKey_baseMetrics])]
      simp only [Bool.and_eq_true, decide_eq_true_eq]
      constructor
      · rintro ⟨ha, hb, _⟩
        exact ⟨ha, hb⟩
      · rintro ⟨ha, hb⟩
        refine ⟨ha, hb, ?_⟩
        have hlen : (0 : ℚ) < ((historyPrices (histFor historical (trimmedTicker row))).length : ℚ) := by
          have : 0 < (historyPrices (histFor historical (trimmedTicker row))).length := by omega
          exact_mod_cast this
        positivity

theorem pfDiv_fin_fin (a b : ℚ) (hb : b ≠ 0) :
    pfDiv (PyFloat.fin a) (PyFloat.fin b) = PyFloat.fin (a / b) := by
  simp only [pfDiv]
  rw [if_neg hb]

theorem clipLow0_shape (x : PyFloat) (hx : x ≠ PyFloat.nan) :
    (∃ q, clipLow0 x = PyFloat.fin q ∧ 0 ≤ q) ∨ clipLow0 x = PyFloat.pinf := by
  cases x with
  | fin q => exact Or.inl ⟨max q 0, rfl, le_max_right _ _⟩
  | pinf => exact Or.inr rfl
  | ninf => exact Or.inl ⟨0, rfl, le_refl 0⟩
  | nan => exact absurd rfl hx

theorem clipHigh0_shape (x : PyFloat) (hx : x ≠ PyFloat.nan) :
    (∃ q, clipHigh0 x = PyFloat.fin q ∧ q ≤ 0) ∨ clipHigh0 x = PyFloat.ninf := by
  cases x with
  | fin q => exact Or.inl ⟨min q 0, rfl, min_le_right _ _⟩
  | pinf => exact Or.inl ⟨0, rfl, le_refl 0⟩
  | ninf => exact Or.inr rfl
  | nan => exact absurd rfl hx

theorem foldl_pfAdd_gain (l : List PyFloat)
    (hl : ∀ x ∈ l, (∃ q, x = PyFloat.fin q ∧ 0 ≤ q) ∨ x = PyFloat.pinf) :
    ∀ a, ((∃ q, a = PyFloat.fin q ∧ 0 ≤ q) ∨ a = PyFloat.pinf) →
      (∃ q, l.foldl pfAdd a = PyFloat.fin q ∧ 0 ≤ q) ∨ l.foldl pfAdd a = PyFloat.pinf := by
  induction l with
  | nil => intro a ha; simpa using ha
  | cons x t ih =>
    intro a ha
    have hx := hl x (by simp)
    have hstep : (∃ q, pfAdd a x = PyFloat.fin q ∧ 0 ≤ q) ∨ pfAdd a x = PyFloat.pinf := by
      rcases ha with ⟨p, rfl, hp⟩ | rfl <;> rcases hx with ⟨r, rfl, hr⟩ | rfl
      · exact Or.inl ⟨p + r, rfl, by linarith⟩
      · exact Or.inr rfl
      · exact Or.inr rfl
      · exact Or.inr rfl
    simpa using ih (fun y hy => hl y (by simp [hy])) (pfAdd a x) hstep

theorem foldl_pfAdd_loss (l : List PyFloat)
    (hl : ∀ x ∈ l, (∃ q, x = PyFloat.fin q ∧ q ≤ 0) ∨ x = PyFloat.ninf) :
    ∀ a, ((∃ q, a = PyFloat.fin q ∧ q ≤ 0) ∨ a = PyFloat.ninf) →
      (∃ q, l.foldl pfAdd a = PyFloat.fin q ∧ q ≤ 0) ∨ l.foldl pfAdd a = PyFloat.ninf := by
  induction l with
  | nil => intro a ha; simpa using ha
  | cons x t ih =>
    intro a ha
    have hx := hl x (by simp)
    have hstep : (∃ q, pfAdd a x = PyFloat.fin q ∧ q ≤ 0) ∨ pfAdd a x = PyFloat.ninf := by
      rcases ha with ⟨p, rfl, hp⟩ | rfl <;> rcases hx with ⟨r, rfl, hr⟩ | rfl
      · exact Or.inl ⟨p + r, rfl, by linarith⟩
      · exact Or.inr rfl
      · exact Or.inr rfl
      · exact Or.inr rfl
    simpa using ih (fun y hy => hl y (by simp [hy])) (pfAdd a x) hstep

theorem gainsOf_shape (rets : List PyFloat) (hn : rets ≠ [])
    (hnan : ∀ x ∈ rets, x ≠ PyFloat.nan) :
    (∃ q, gainsOf rets = PyFloat.fin q ∧ 0 ≤ q) ∨ gainsOf rets = PyFloat.pinf := by
  have hlen : (lastN 14 (rets.map clipLow0)).length ≠ 0 := by
    have h1 : 0 < rets.length := List.length_pos.mpr hn
    simp only [lastN, List.length_drop, List.length_map]
    omega
  have hmem : ∀ x ∈ lastN 14 (rets.map clipLow0),
      (∃ q, x = PyFloat.fin q ∧ 0 ≤ q) ∨ x = PyFloat.pinf := by
    intro x hx
    have hx2 : x ∈ rets.map clipLow0 := List.mem_of_mem_drop hx
    obtain ⟨r, hr, rfl⟩ := List.mem_map.mp hx2
    exact clipLow0_shape r (hnan r hr)
  have hsum : (∃ q, sumPF (lastN 14 (rets.map clipLow0)) = PyFloat.fin q ∧ 0 ≤ q) ∨
      sumPF (lastN 14 (rets.map clipLow0)) = PyFloat.pinf :=
    foldl_pfAdd_gain _ hmem (.fin 0) (Or.inl ⟨0, rfl, le_refl 0⟩)
  unfold gainsOf meanPF
  rw [if_neg hlen]
  rcases hsum with ⟨q, hq, hq0⟩ | hq
  · rw [hq]
    exact Or.inl ⟨q / ((lastN 14 (rets.map clipLow0)).length : ℚ), rfl,
      div_nonneg hq0 (Nat.cast_nonneg _)⟩
  · rw [hq]
    exact Or.inr rfl

theorem lossesOf_shape (rets : List PyFloat) (hn : rets ≠ [])
    (hnan : ∀ x ∈ rets, x ≠ PyFloat.nan) :
    (∃ q, lossesOf rets = PyFloat.fin q ∧ 0 ≤ q) ∨ lossesOf rets = PyFloat.pinf := by
  have hlen : (lastN 14 (rets.map clipHigh0)).length ≠ 0 := by
    have h1 : 0 < rets.length := List.length_pos.mpr hn
    simp only [lastN, List.length_drop, List.length_map]
    omega
  have hmem : ∀ x ∈ lastN 14 (rets.map clipHigh0),
      (∃ q, x = PyFloat.fin q ∧ q ≤ 0) ∨ x = PyFloat.ninf := by
    intro x hx
    have hx2 : x ∈ rets.map clipHigh0 := List.mem_of_mem_drop hx
    obtain ⟨r, hr, rfl⟩ := List.mem_map.mp hx2
    exact clipHigh0_shape r (hnan r hr)
  have hsum : (∃ q, sumPF (lastN 14 (rets.map clipHigh0)) = PyFloat.fin q ∧ q ≤ 0) ∨
      sumPF (lastN 14 (rets.map clipHigh0)) = PyFloat.ninf :=
    foldl_pfAdd_loss _ hmem (.fin 0) (Or.inl ⟨0, rfl, le_refl 0⟩)
  unfold lossesOf meanPF
  rw [if_neg hlen]
  rcases hsum with ⟨q, hq, hq0⟩ | hq
  · rw [hq]
    refine Or.inl ⟨-(q / ((lastN 14 (rets.map clipHigh0)).length : ℚ)), rfl, ?_⟩
    have h2 : 0 ≤ (-q) / ((lastN 14 (rets.map clipHigh0)).length : ℚ) :=
      div_nonneg (neg_nonneg.mpr hq0) (Nat.cast_nonneg _)
    rw [neg_div] at h2
    exact h2
  · rw [hq]
    exact Or.inr rfl

theorem pctChange_no_nan (hp : List ℚ) : ∀ x ∈ pctChange hp, x ≠ PyFloat.nan := by
  intro x hx hnan
  subst hnan
  obtain ⟨pc, _, hpc⟩ := List.mem_filterMap.mp hx
  by_cases h1 : pc.1 = 0
  · rw [if_pos h1] at hpc
    by_cases h2 : pc.2 = 0
    · rw [if_pos h2] at hpc
      exact absurd hpc (by simp)
    · rw [if_neg h2] at hpc
      by_cases h3 : 0 < pc.2
      · rw [if_pos h3] at hpc
        exact absurd hpc (by simp)
      · rw [if_neg h3] at hpc
        exact absurd hpc (by simp)
  · rw [if_neg h1] at hpc
    exact absurd hpc (by simp)

theorem rsiOf_shape (rets : List PyFloat) (hn : rets ≠ [])
    (hnan : ∀ x ∈ rets, x ≠ PyFloat.nan) :
    (∃ q, rsiOf rets = PyFloat.fin q ∧ 0 ≤ q ∧ q ≤ 100) ∨ rsiOf rets = PyFloat.nan := by
  unfold rsiOf
  by_cases hz : lossesOf rets = PyFloat.fin 0
  · rw [if_pos hz]
    exact Or.inl ⟨100, rfl, by norm_num, by norm_num⟩
  · rw [if_neg hz]
    rcases gainsOf_shape rets hn hnan with ⟨g, hg, hg0⟩ | hg
    · rcases lossesOf_shape rets hn hnan with ⟨l, hl2, hl0⟩ | hl2
      · have hlne : l ≠ 0 := by
          intro h0
          rw [h0] at hl2
          exact hz hl2
        have hlpos : 0 < l := lt_of_le_of_ne hl0 (Ne.symm hlne)
        rw [hg, hl2, pfDiv_fin_fin g l hlne]
        have hrs0 : 0 ≤ g / l := div_nonneg hg0 hlpos.le
        have hd0 : (0 : ℚ) < 1 + g / l := by linarith
        rw [show pfAdd (PyFloat.fin 1) (PyFloat.fin (g / l)) = PyFloat.fin (1 + g / l) from rfl,
          pfDiv_fin_fin 100 _ (ne_of_gt hd0)]
        refine Or.inl ⟨100 + -(100 / (1 + g / l)), rfl, ?_, ?_⟩
        · have h1 : 100 / (1 + g / l) ≤ 100 := div_le_self (by norm_num) (by linarith)
          linarith
        · have h2 : 0 < 100 / (1 + g / l) := div_pos (by norm_num) hd0
          linarith
      · rw [hg, hl2,
          show pfDiv (PyFloat.fin g) PyFloat.pinf = PyFloat.fin 0 from rfl,
          show pfAdd (PyFloat.fin 1) (PyFloat.fin 0) = PyFloat.fin (1 + 0) from rfl,
          pfDiv_fin_fin 100 (1 + 0) (by norm_num)]
        exact Or.inl ⟨100 + -(100 / (1 + 0)), rfl, by norm_num, by norm_num⟩
    · rcases lossesOf_shape rets hn hnan with ⟨l, hl2, hl0⟩ | hl2
      · have hlne : l ≠ 0 := by
          intro h0
          rw [h0] at hl2
          exact hz hl2
        have hlpos : 0 < l := lt_of_le_of_ne hl0 (Ne.symm hlne)
        have hdiv : pfDiv PyFloat.pinf (PyFloat.fin l) = PyFloat.pinf := by
          simp only [pfDiv]
          rw [if_neg (not_lt.mpr hlpos.le)]
        rw [hg, hl2, hdiv]
        exact Or.inl ⟨100 + -0, rfl, by norm_num, by norm_num⟩
      · rw [hg, hl2]
        exact Or.inr rfl

set_option maxRecDepth 40000 in
/-- C3 counterexample: the ticker `R` history with prices
`1, 0, 1, 0, -1` followed by ten constant `1`s yields fourteen
period-over-period returns whose gains and losses series both have an
infinite mean, so `rs` is NaN and the emitted `rsi_14` is NaN — a value
outside the claimed `[0, 100]` interval. -/
theorem calculate_for_row_rsi_nan_counterexample :
    calculate_for_row [("ticker_symbol", Value.str "R"), ("stock_price", Value.num 1)]
        rsiNanHist =
      Except.ok (buildMetrics [("ticker_symbol", Value.str "R"), ("stock_price", Value.num 1)]
        (histFor rsiNanHist "R") 1) ∧
    alookup (buildMetrics [("ticker_symbol", Value.str "R"), ("stock_price", Value.num 1)]
        (histFor rsiNanHist "R") 1) "rsi_14" = some Value.nan := by
  refine ⟨rfl, ?_⟩
  have hg : gainsOf (pctChange (historyPrices (histFor rsiNanHist "R"))) = PyFloat.pinf := by
    norm_num [gainsOf, meanPF, sumPF, lastN, pctChange, historyPrices, histFor, pyFloat?,
      rsiNanHist, pfAdd, pfDivNat, clipLow0, List.insertionSort, List.orderedInsert,
      List.filterMap_cons, List.filter_cons, List.zip, List.zipWith, List.foldl]
  have hz : lossesOf (pctChange (historyPrices (histFor rsiNanHist "R"))) = PyFloat.pinf := by
    norm_num [lossesOf, meanPF, sumPF, lastN, pctChange, historyPrices, histFor, pyFloat?,
      rsiNanHist, pfAdd, pfNeg, pfDivNat, clipHigh0, List.insertionSort, List.orderedInsert,
      List.filterMap_cons, List.filter_cons, List.zip, List.zipWith, List.foldl]
  have hrsi : rsiOf (pctChange (historyPrices (histFor rsiNanHist "R"))) = PyFloat.nan := by
    unfold rsiOf
    rw [if_neg (by rw [hz]; decide), hg, hz]
    rfl
  unfold buildMetrics histBlock
  rw [alookup_addNested_other _ _ _ (by decide) (by decide) (by decide) (by decide)
      (by decide) (by decide) (by decide) (by decide) (by decide) (by decide),
    if_neg (by decide), alookup_hist_rsi, if_pos (by decide), hrsi]
  rfl

/-- C3 (amended): `rsi_14` is emitted exactly when the ticker's numeric
historical series yields at least 14 period-over-period returns; every
emitted value is either a rational in the closed interval `[0, 100]` or
NaN (NaN arises when the gains and losses means are both infinite, from a
zero previous price in the series), and the value is exactly `100`
whenever the losses mean is zero and the field is emitted. -/
theorem calculate_for_row_rsi_bounds (row : Row) (historical : List HistRow) (m : Row)
    (h : calculate_for_row row historical = Except.ok m) :
    (hasKey m "rsi_14" = true ↔
      14 ≤ (pctChange (historyPrices (histFor historical (trimmedTicker row)))).length) ∧
    (∀ v, alookup m "rsi_14" = some v →
      (∃ q : ℚ, v = Value.num q ∧ 0 ≤ q ∧ q ≤ 100) ∨ v = Value.nan) ∧
    (lossesOf (pctChange (historyPrices (histFor historical (trimmedTicker row)))) =
        PyFloat.fin 0 →
      hasKey m "rsi_14" = true →
      alookup m "rsi_14" = some (Value.num 100)) := by
  obtain ⟨ht, hhist, latest, hl, hmax, hm⟩ := calculate_for_row_ok_inv row historical m h
  subst hm
  unfold buildMetrics histBlock
  by_cases he : (histFor historical (trimmedTicker row)).isEmpty
  · rw [if_pos he]
    have hH : histFor historical (trimmedTicker row) = [] := List.isEmpty_iff.mp he
    rw [hH]
    refine ⟨?_, ?_, ?_⟩
    · simp [hasKey_addNested_other, hasKey_addPrimary1d, hasKey_baseMetrics, historyPrices,
        pctChange]
    · intro v hv
      rw [alookup_addNested_other _ _ _ (by decide) (by decide) (by decide) (by decide)
          (by decide) (by decide) (by decide) (by decide) (by decide) (by decide),
        alookup_addPrimary1d_ne _ _ _ _ (by decide),
        alookup_baseMetrics_other _ _ _ _ (by decide) (by decide) (by decide) (by decide)] at hv
      exact absurd hv (by simp)
    · intro hz hkey
      simp [hasKey_addNested_other, hasKey_addPrimary1d, hasKey_baseMetrics] at hkey
  · rw [if_neg he]
    refine ⟨?_, ?_, ?_⟩
    · simp [hasKey_addNested_other, hasKey_hist_rsi, hasKey_addPrimary1d, hasKey_baseMetrics]
    · intro v hv
      rw [alookup_addNested_other _ _ _ (by decide) (by decide) (by decide) (by decide)
          (by decide) (by decide) (by decide) (by decide) (by decide) (by decide),
        alookup_hist_rsi] at hv
      by_cases h14 :
          14 ≤ (pctChange (historyPrices (histFor historical (trimmedTicker row)))).length
      · rw [if_pos h14] at hv
        simp only [Option.some.injEq] at hv
        subst hv
        have hne : pctChange (historyPrices (histFor historical (trimmedTicker row))) ≠ [] := by
          intro hnil
          rw [hnil] at h14
          simp at h14
        rcases rsiOf_shape _ hne (pctChange_no_nan _) with ⟨q, hq, h0, h100⟩ | hq
        · rw [hq]
          exact Or.inl ⟨q, rfl, h0, h100⟩
        · rw [hq]
          exact Or.inr rfl
      · rw [if_neg h14,
          alookup_addPrimary1d_ne _ _ _ _ (by decide),
          alookup_baseMetrics_other _ _ _ _ (by decide) (by decide) (by decide) (by decide)] at hv
        exact absurd hv (by simp)
    · intro hz hkey
      simp [hasKey_addNested_other, hasKey_hist_rsi, hasKey_addPrimary1d,
        hasKey_baseMetrics] at hkey
      rw [alookup_addNested_other _ _ _ (by decide) (by decide) (by decide) (by decide)
          (by decide) (by decide) (by decide) (by decide) (by decide) (by decide),
        alookup_hist_rsi, if_pos hkey]
      have hfin : rsiOf (pctChange (historyPrices (histFor historical (trimmedTicker row)))) =
          PyFloat.fin 100 := by
        unfold rsiOf
        rw [if_pos hz]
      rw [hfin]
      rfl

theorem hasKey_buildMetrics_of_base (row : Row) (history : List HistRow) (latest : ℚ)
    (k : String)
    (h1 : k ≠ "market_cap") (h2 : k ≠ "revenue") (h3 : k ≠ "pe_ratio")
    (h4 : k ≠ "pb_ratio") (h5 : k ≠ "ps_ratio") (h6 : k ≠ "dividend_yield")
    (h7 : k ≠ "week_52_low") (h8 : k ≠ "week_52_high") (h9 : k ≠ "total_return_1m")
    (h10 : k ≠ "total_return_1y")
    (g1 : k ≠ "price_change_1d_pct") (g2 : k ≠ "price_change_1w_pct")
    (g3 : k ≠ "price_change_1m_pct") (g4 : k ≠ "moving_average_20d")
    (g5 : k ≠ "moving_average_50d") (g6 : k ≠ "moving_average_200d")
    (g7 : k ≠ "all_time_high") (g8 : k ≠ "all_time_low")
    (g9 : k ≠ "distance_from_ath_pct") (g10 : k ≠ "rsi_14") (g11 : k ≠ "return_cagr")
    (hbase : hasKey (baseMetrics row (trimmedTicker row) latest) k = true) :
    hasKey (buildMetrics row history latest) k = true := by
  unfold buildMetrics histBlock
  rw [hasKey_addNested_other _ _ _ h1 h2 h3 h4 h5 h6 h7 h8 h9 h10]
  by_cases he : history.isEmpty
  · rw [if_pos he, hasKey_addPrimary1d _ _ _ _ g1]
    exact hbase
  · rw [if_neg he, hasKey_hist_other _ _ _ _ g1 g2 g3 g4 g5 g6 g7 g8 g9 g10 g11,
      hasKey_addPrimary1d _ _ _ _ g1]
    exact hbase

/-- C10: every successful `calculate_for_row` output contains the keys
`ticker_symbol`, `company_name`, `stock_price` and `stock_change`, and each
of the ten nested-metric keys is always present, bound to the result of the
tolerant extraction (null when nothing is found) rather than being
conditionally omitted like the history-gated fields. -/
theorem calculate_for_row_unconditional_keys (row : Row) (historical : List HistRow) (m : Row)
    (h : calculate_for_row row historical = Except.ok m) :
    hasKey m "ticker_symbol" = true ∧ hasKey m "company_name" = true ∧
    hasKey m "stock_price" = true ∧ hasKey m "stock_change" = true ∧
    alookup m "market_cap" =
      some (valOpt (_extract_metric (subdict row "overview_metrics")
        ["marketCap", "market_cap", "Market Cap"])) ∧
    alookup m "revenue" =
      some (valOpt (_extract_metric (subdict row "overview_metrics") ["revenue", "Revenue"])) ∧
    alookup m "pe_ratio" =
      some (valOpt (_extract_metric (subdict row "overview_metrics")
        ["peRatio", "pe_ratio", "PE Ratio"])) ∧
    alookup m "pb_ratio" =
      some (valOpt (_extract_metric (subdict row "overview_metrics")
        ["pbRatio", "pb_ratio", "PB Ratio"])) ∧
    alookup m "ps_ratio" =
      some (valOpt (_extract_metric (subdict row "overview_metrics")
        ["psRatio", "ps_ratio", "PS Ratio"])) ∧
    alookup m "dividend_yield" =
      some (valOpt (_extract_metric (subdict row "dividends_metrics")
        ["dividendYield", "dividend_yield", "Dividend Yield"])) ∧
    alookup m "week_52_low" =
      some (valOpt (_extract_metric (subdict row "price_metrics")
        ["low52", "52 Week Low", "52_week_low"])) ∧
    alookup m "week_52_high" =
      some (valOpt (_extract_metric (subdict row "price_metrics")
        ["high52", "52 Week High", "52_week_high"])) ∧
    alookup m "total_return_1m" =
      some (valOpt (_extract_metric (subdict row "performance_metrics")
        ["tr1m", "Total Return 1M"])) ∧
    alookup m "total_return_1y" =
      some (valOpt (_extract_metric (subdict row "performance_metrics")
        ["tr1y", "Total Return 1Y"])) := by
  obtain ⟨ht, hhist, latest, hl, hmax, hm⟩ := calculate_for_row_ok_inv row historical m h
  subst hm
  have hnest := alookup_addNested_self row
    (histBlock latest (histFor historical (trimmedTicker row))
      (addPrimary1d (_to_float (alookup row "stock_change")) latest
        (baseMetrics row (trimmedTicker row) latest)))
  refine ⟨?_, ?_, ?_, ?_,
    hnest.1, hnest.2.1, hnest.2.2.1, hnest.2.2.2.1, hnest.2.2.2.2.1, hnest.2.2.2.2.2.1,
    hnest.2.2.2.2.2.2.1, hnest.2.2.2.2.2.2.2.1, hnest.2.2.2.2.2.2.2.2.1,
    hnest.2.2.2.2.2.2.2.2.2⟩
  · exact hasKey_buildMetrics_of_base _ _ _ _ (by decide) (by decide) (by decide) (by decide)
      (by decide) (by decide) (by decide) (by decide) (by decide) (by decide) (by decide)
      (by decide) (by decide) (by decide) (by decide) (by decide) (by decide) (by decide)
      (by decide) (by decide) (by decide) (hasKey_baseMetrics_self _ _ _).1
  · exact hasKey_buildMetrics_of_base _ _ _ _ (by decide) (by decide) (by decide) (by decide)
      (by decide) (by decide) (by decide) (by decide) (by decide) (by decide) (by decide)
      (by decide) (by decide) (by decide) (by decide) (by decide) (by decide) (by decide)
      (by decide) (by decide) (by decide) (hasKey_baseMetrics_self _ _ _).2.1
  · exact hasKey_buildMetrics_of_base _ _ _ _ (by decide) (by decide) (by decide) (by decide)
      (by decide) (by decide) (by decide) (by decide) (by decide) (by decide) (by decide)
      (by decide) (by decide) (by decide) (by decide) (by decide) (by decide) (by decide)
      (by decide) (by decide) (by decide) (hasKey_baseMetrics_self _ _ _).2.2.1
  · exact hasKey_buildMetrics_of_base _ _ _ _ (by decide) (by decide) (by decide) (by decide)
      (by decide) (by decide) (by decide) (by decide) (by decide) (by decide) (by decide)
      (by decide) (by decide) (by decide) (by decide) (by decide) (by decide) (by decide)
      (by decide) (by decide) (by decide) (hasKey_baseMetrics_self _ _ _).2.2.2

set_option maxRecDepth 40000 in
/-- C2 witness: the 30-point scenario has `moving_average_20d` and lacks
`moving_average_50d`. -/
theorem calculate_for_row_history_gates_witness :
    calculate_for_row [("ticker_symbol", Value.str "KCB"), ("stock_price", Value.num 22)]
        (List.replicate 30 (⟨"KCB", 0, Value.num 20⟩ : HistRow)) =
      Except.ok (buildMetrics [("ticker_symbol", Value.str "KCB"), ("stock_price", Value.num 22)]
        (histFor (List.replicate 30 (⟨"KCB", 0, Value.num 20⟩ : HistRow)) "KCB") 22) ∧
    hasKey (buildMetrics [("ticker_symbol", Value.str "KCB"), ("stock_price", Value.num 22)]
        (histFor (List.replicate 30 (⟨"KCB", 0, Value.num 20⟩ : HistRow)) "KCB") 22)
      "moving_average_20d" = true ∧
    hasKey (buildMetrics [("ticker_symbol", Value.str "KCB"), ("stock_price", Value.num 22)]
        (histFor (List.replicate 30 (⟨"KCB", 0, Value.num 20⟩ : HistRow)) "KCB") 22)
      "moving_average_50d" = false := by
  have h1 : calculate_for_row [("ticker_symbol", Value.str "KCB"), ("stock_price", Value.num 22)]
      (List.replicate 30 (⟨"KCB", 0, Value.num 20⟩ : HistRow)) =
      Except.ok (buildMetrics [("ticker_symbol", Value.str "KCB"), ("stock_price", Value.num 22)]
        (histFor (List.replicate 30 (⟨"KCB", 0, Value.num 20⟩ : HistRow)) "KCB") 22) := rfl
  have hg := calculate_for_row_history_gates _ _ _ h1
  refine ⟨h1, hg.2.2.1.mpr (by decide), ?_⟩
  exact Bool.eq_false_iff.mpr (fun hh => absurd (hg.2.2.2.1.mp hh) (by decide))

set_option maxRecDepth 40000 in
/-- C3 witness: fifteen equal prices give fourteen zero returns, a zero
losses mean, and hence an emitted RSI of exactly 100. -/
theorem calculate_for_row_rsi_bounds_witness :
    calculate_for_row [("ticker_symbol", Value.str "A"), ("stock_price", Value.num 1)]
        (List.replicate 15 (⟨"A", 0, Value.num 1⟩ : HistRow)) =
      Except.ok (buildMetrics [("ticker_symbol", Value.str "A"), ("stock_price", Value.num 1)]
        (histFor (List.replicate 15 (⟨"A", 0, Value.num 1⟩ : HistRow)) "A") 1) ∧
    alookup (buildMetrics [("ticker_symbol", Value.str "A"), ("stock_price", Value.num 1)]
        (histFor (List.replicate 15 (⟨"A", 0, Value.num 1⟩ : HistRow)) "A") 1) "rsi_14" =
      some (Value.num 100) := by
  have h1 : calculate_for_row [("ticker_symbol", Value.str "A"), ("stock_price", Value.num 1)]
      (List.replicate 15 (⟨"A", 0, Value.num 1⟩ : HistRow)) =
      Except.ok (buildMetrics [("ticker_symbol", Value.str "A"), ("stock_price", Value.num 1)]
        (histFor (List.replicate 15 (⟨"A", 0, Value.num 1⟩ : HistRow)) "A") 1) := rfl
  have hb := calculate_for_row_rsi_bounds _ _ _ h1
  have hz : lossesOf (pctChange (historyPrices
      (histFor (List.replicate 15 (⟨"A", 0, Value.num 1⟩ : HistRow)) "A"))) = PyFloat.fin 0 := by
    norm_num [lossesOf, meanPF, sumPF, pfNeg, pfAdd, pfDivNat, clipHigh0, lastN, pctChange,
      historyPrices, histFor, pyFloat?, List.insertionSort, List.orderedInsert,
      List.replicate, List.filterMap_cons, List.filter_cons, List.zip, List.zipWith,
      List.foldl]
  exact ⟨h1, hb.2.2 hz (hb.1.mpr (by decide))⟩

set_option maxRecDepth 40000 in
/-- C10 witness: a minimal successful row has the base keys present and
`market_cap` present but null. -/
theorem calculate_for_row_unconditional_keys_witness :
    calculate_for_row [("ticker_symbol", Value.str "B"), ("stock_price", Value.num 3)]
        [⟨"B", 0, Value.num 3⟩] =
      Except.ok (buildMetrics [("ticker_symbol", Value.str "B"), ("stock_price", Value.num 3)]
        (histFor [⟨"B", 0, Value.num 3⟩] "B") 3) ∧
    hasKey (buildMetrics [("ticker_symbol", Value.str "B"), ("stock_price", Value.num 3)]
        (histFor [⟨"B", 0, Value.num 3⟩] "B") 3) "ticker_symbol" = true ∧
    alookup (buildMetrics [("ticker_symbol", Value.str "B"), ("stock_price", Value.num 3)]
        (histFor [⟨"B", 0, Value.num 3⟩] "B") 3) "market_cap" = some Value.null := by
  have h1 : calculate_for_row [("ticker_symbol", Value.str "B"), ("stock_price", Value.num 3)]
      [⟨"B", 0, Value.num 3⟩] =
      Except.ok (buildMetrics [("ticker_symbol", Value.str "B"), ("stock_price", Value.num 3)]
        (histFor [⟨"B", 0, Value.num 3⟩] "B") 3) := rfl
  have hthm := calculate_for_row_unconditional_keys _ _ _ h1
  refine ⟨h1, hthm.1, ?_⟩
  rw [hthm.2.2.2.2.1]
  rfl

theorem charsLe_refl (cs : List Char) : charsLe cs cs = true := by
  induction cs with
  | nil => rfl
  | cons a t ih => simp [charsLe, lt_irrefl, ih]

theorem charsLe_total (a b : List Char) : charsLe a b = true ∨ charsLe b a = true := by
  induction a generalizing b with
  | nil => left; rfl
  | cons x xs ih =>
    cases b with
    | nil => right; rfl
    | cons y ys =>
      rcases lt_trichotomy x y with hxy | hxy | hxy
      · left; simp [charsLe, hxy]
      · subst hxy
        rcases ih ys with h | h
        · left; simp [charsLe, lt_irrefl, h]
        · right; simp [charsLe, lt_irrefl, h]
      · right; simp [charsLe, hxy]

theorem charsLe_trans (a : List Char) :
    ∀ b c, charsLe a b = true → charsLe b c = true → charsLe a c = true := by
  induction a with
  | nil => intro b c _ _; rfl
  | cons x xs ih =>
    intro b c h1 h2
    cases b with
    | nil => simp [charsLe] at h1
    | cons y ys =>
      cases c with
      | nil => simp [charsLe] at h2
      | cons z zs =>
        simp only [charsLe] at h1 h2 ⊢
        rcases lt_trichotomy x y with hxy | hxy | hxy
        · rcases lt_trichotomy y z with hyz | hyz | hyz
          · rw [if_pos (lt_trans hxy hyz)]
          · subst hyz
            rw [if_pos hxy]
          · rw [if_neg (lt_asymm hyz), if_pos hyz] at h2
            exact absurd h2 (by simp)
        · subst hxy
          rcases lt_trichotomy x z with hxz | hxz | hxz
          · rw [if_pos hxz]
          · subst hxz
            rw [if_neg (lt_irrefl x), if_neg (lt_irrefl x)] at h1 h2 ⊢
            exact ih ys zs h1 h2
          · rw [if_neg (lt_asymm hxz), if_pos hxz] at h2
            exact absurd h2 (by simp)
        · rw [if_neg (lt_asymm hxy), if_pos hxy] at h1
          exact absurd h1 (by simp)

theorem alookup_append {α : Type} (l1 l2 : List (String × α)) (k : String) :
    alookup (l1 ++ l2) k = (alookup l1 k).or (alookup l2 k) := by
  induction l1 with
  | nil => simp [alookup]
  | cons kv rest ih =>
    by_cases h : kv.1 = k <;> simp [alookup, h, ih]

theorem alookup_eq_none_iff_hasKey {α : Type} (l : List (String × α)) (k : String) :
    alookup l k = none ↔ hasKey l k = false := by
  induction l with
  | nil => simp [alookup, hasKey]
  | cons kv rest ih =>
    by_cases h : kv.1 = k <;> simp [alookup, hasKey, h] at ih ⊢
    exact ih

theorem hasKey_iff_mem_keys {α : Type} (l : List (String × α)) (k : String) :
    hasKey l k = true ↔ k ∈ l.map Prod.fst := by
  induction l with
  | nil => simp [hasKey]
  | cons kv rest ih =>
    simp only [hasKey_cons, Bool.or_eq_true, decide_eq_true_eq, List.map_cons,
      List.mem_cons, ih]
    constructor
    · rintro (h | h)
      · exact Or.inl h.symm
      · exact Or.inr h
    · rintro (h | h)
      · exact Or.inl h.symm
      · exact Or.inr h

theorem alookup_some_mem_keys {α : Type} (l : List (String × α)) (k : String) (v : α)
    (h : alookup l k = some v) : k ∈ l.map Prod.fst := by
  rw [← hasKey_iff_mem_keys]
  cases hh : hasKey l k with
  | true => rfl
  | false => rw [(alookup_eq_none_iff_hasKey l k).mpr hh] at h; exact absurd h (by simp)

theorem alookup_addRowIfNew (acc : List (String × Row)) (row : Row) (t : String)
    (ht : t ≠ "") :
    alookup (addRowIfNew acc row) t =
      if trimmedTicker row = t ∧ hasKey acc t = false then some row else alookup acc t := by
  unfold addRowIfNew
  by_cases h0 : trimmedTicker row = ""
  · rw [if_pos h0, if_neg]
    rintro ⟨h1, _⟩
    exact ht (h1 ▸ h0)
  · rw [if_neg h0]
    by_cases hk : hasKey acc (trimmedTicker row) = true
    · rw [if_pos hk, if_neg]
      rintro ⟨h1, h2⟩
      rw [h1] at hk
      rw [hk] at h2
      exact absurd h2 (by simp)
    · have hk' : hasKey acc (trimmedTicker row) = false := Bool.eq_false_iff.mpr hk
      rw [if_neg hk, alookup_append]
      by_cases h1 : trimmedTicker row = t
      · subst h1
        rw [if_pos ⟨rfl, hk'⟩, (alookup_eq_none_iff_hasKey acc _).mpr hk']
        simp [alookup, Option.or]
      · rw [if_neg (by rintro ⟨hh, _⟩; exact h1 hh)]
        have hnil : alookup [(trimmedTicker row, row)] t = none := by
          simp [alookup, h1]
        rw [hnil]
        cases h2 : alookup acc t <;> simp [Option.or]

theorem alookup_foldl_addRow (l : List Row) (acc : List (String × Row)) (t : String)
    (ht : t ≠ "") :
    alookup (l.foldl addRowIfNew acc) t =
      (alookup acc t).or (l.find? (fun r => decide (trimmedTicker r = t))) := by
  induction l generalizing acc with
  | nil => simp
  | cons r rest ih =>
    simp only [List.foldl_cons, List.find?_cons]
    rw [ih (addRowIfNew acc r), alookup_addRowIfNew acc r t ht]
    by_cases hr : trimmedTicker r = t
    · rw [decide_eq_true hr]
      cases ha : alookup acc t with
      | none =>
        rw [if_pos ⟨hr, (alookup_eq_none_iff_hasKey acc t).mp ha⟩]
        simp [Option.or]
      | some v =>
        rw [if_neg]
        · simp [Option.or]
        · rintro ⟨_, h2⟩
          rw [(alookup_eq_none_iff_hasKey acc t).mpr h2] at ha
          exact absurd ha (by simp)
    · rw [decide_eq_false hr, if_neg (by rintro ⟨hh, _⟩; exact hr hh)]

theorem keys_nodup_foldl (l : List Row) (acc : List (String × Row))
    (hacc : (acc.map Prod.fst).Nodup) :
    ((l.foldl addRowIfNew acc).map Prod.fst).Nodup := by
  induction l generalizing acc with
  | nil => exact hacc
  | cons r rest ih =>
    apply ih
    unfold addRowIfNew
    by_cases h0 : trimmedTicker r = ""
    · rw [if_pos h0]; exact hacc
    · rw [if_neg h0]
      by_cases hk : hasKey acc (trimmedTicker r) = true
      · rw [if_pos hk]; exact hacc
      · rw [if_neg hk]
        have hk' : trimmedTicker r ∉ acc.map Prod.fst := by
          rw [← hasKey_iff_mem_keys]
          simp [hk]
        simp only [List.map_append, List.map_cons, List.map_nil]
        rw [List.nodup_append]
        exact ⟨hacc, List.nodup_singleton _, by simpa using hk'⟩

theorem keys_ne_empty_foldl (l : List Row) (acc : List (String × Row))
    (hacc : ∀ e ∈ acc, e.1 ≠ "") :
    ∀ e ∈ l.foldl addRowIfNew acc, e.1 ≠ "" := by
  induction l generalizing acc with
  | nil => exact hacc
  | cons r rest ih =>
    apply ih
    unfold addRowIfNew
    by_cases h0 : trimmedTicker r = ""
    · rw [if_pos h0]; exact hacc
    · rw [if_neg h0]
      by_cases hk : hasKey acc (trimmedTicker r) = true
      · rw [if_pos hk]; exact hacc
      · rw [if_neg hk]
        intro e he
        rcases List.mem_append.mp he with he | he
        · exact hacc e he
        · simp only [List.mem_singleton] at he
          subst he
          exact h0

theorem sorted_find?_max (l : List Row) (hs : List.Sorted tsGeRel l) (p : Row → Bool)
    (r : Row) (hf : l.find? p = some r) :
    ∀ x ∈ l, p x = true → tsGeRel r x := by
  induction l with
  | nil => simp [List.find?] at hf
  | cons a t ih =>
    rw [List.sorted_cons] at hs
    rw [List.find?_cons] at hf
    cases hpa : p a with
    | true =>
      rw [hpa] at hf
      simp only [Option.some.injEq] at hf
      subst hf
      intro x hx _
      rcases List.mem_cons.mp hx with hx | hx
      · subst hx
        exact charsLe_refl _
      · exact hs.1 x hx
    | false =>
      rw [hpa] at hf
      intro x hx hpx
      rcases List.mem_cons.mp hx with hx | hx
      · subst hx
        rw [hpa] at hpx
        exact absurd hpx (by simp)
      · exact ih hs.2 hf x hx hpx

/-- C5: the merged mapping's key set is exactly the distinct trimmed
non-empty ticker symbols of the input (each key once, blank tickers dropped
without error), and every surviving row is an input row of its ticker whose
timestamp is maximal among that ticker's rows, a missing timestamp sorting
as the lowest value `""`; the returned list is the mapping's values. -/
theorem merge_current_data_spec (rows : List Row) :
    ((merge_by_ticker rows).map Prod.fst).Nodup ∧
    (∀ t, t ∈ (merge_by_ticker rows).map Prod.fst ↔
      (t ≠ "" ∧ ∃ r ∈ rows, trimmedTicker r = t)) ∧
    (∀ t r, alookup (merge_by_ticker rows) t = some r →
      r ∈ rows ∧ trimmedTicker r = t ∧
      ∀ r' ∈ rows, trimmedTicker r' = t →
        charsLe (tsKey r').data (tsKey r).data = true) ∧
    merge_current_data rows = (merge_by_ticker rows).map Prod.snd := by
  have hperm : (sortDescByTs rows).Perm rows := List.perm_insertionSort _ _
  haveI instTot : IsTotal Row tsGeRel :=
    ⟨fun a b => charsLe_total (tsKey b).data (tsKey a).data⟩
  haveI instTr : IsTrans Row tsGeRel :=
    ⟨fun a b c h1 h2 => charsLe_trans (tsKey c).data (tsKey b).data (tsKey a).data h2 h1⟩
  have hsorted : List.Sorted tsGeRel (sortDescByTs rows) := List.sorted_insertionSort _ _
  refine ⟨keys_nodup_foldl _ [] (by simp), ?_, ?_, rfl⟩
  · intro t
    by_cases ht : t = ""
    · subst ht
      constructor
      · intro hmem
        obtain ⟨e, he, he2⟩ := List.mem_map.mp hmem
        exact absurd he2 (keys_ne_empty_foldl _ [] (by simp) e he)
      · rintro ⟨hne, _⟩
        exact absurd rfl hne
    · rw [← hasKey_iff_mem_keys]
      constructor
      · intro hk
        cases ha : alookup (merge_by_ticker rows) t with
        | none =>
          rw [(alookup_eq_none_iff_hasKey _ _).mp ha] at hk
          exact absurd hk (by simp)
        | some r =>
          refine ⟨ht, ?_⟩
          unfold merge_by_ticker at ha
          rw [alookup_foldl_addRow _ [] t ht] at ha
          simp only [alookup, Option.or] at ha
          have hp := List.find?_some ha
          exact ⟨r, hperm.mem_iff.mp (List.mem_of_find?_eq_some ha), by simpa using hp⟩
      · rintro ⟨-, r, hr, hrt⟩
        cases ha : alookup (merge_by_ticker rows) t with
        | some v =>
          cases hk : hasKey (merge_by_ticker rows) t with
          | true => rfl
          | false =>
            rw [(alookup_eq_none_iff_hasKey _ _).mpr hk] at ha
            exact absurd ha (by simp)
        | none =>
          exfalso
          unfold merge_by_ticker at ha
          rw [alookup_foldl_addRow _ [] t ht] at ha
          simp only [alookup, Option.or] at ha
          have := List.find?_eq_none.mp ha r (hperm.mem_iff.mpr hr)
          simp [hrt] at this
  · intro t r ha
    have htne : t ≠ "" := by
      intro hteq
      subst hteq
      obtain ⟨e, he, he2⟩ := List.mem_map.mp (alookup_some_mem_keys _ _ _ ha)
      exact keys_ne_empty_foldl _ [] (by simp) e he he2
    unfold merge_by_ticker at ha
    rw [alookup_foldl_addRow _ [] t htne] at ha
    simp only [alookup, Option.or] at ha
    have hp := List.find?_some ha
    refine ⟨hperm.mem_iff.mp (List.mem_of_find?_eq_some ha), by simpa using hp, ?_⟩
    intro r' hr' hrt'
    exact sorted_find?_max (sortDescByTs rows) hsorted _ r ha r'
      (hperm.mem_iff.mpr hr') (decide_eq_true hrt')

/-- C5 witness: of two rows for ticker `"A"`, the one with the later
`scraped_at` survives the merge, and its timestamp dominates the other's. -/
theorem merge_current_data_spec_witness :
    alookup (merge_by_ticker
      [[("ticker_symbol", Value.str "A"), ("scraped_at", Value.str "1")],
       [("ticker_symbol", Value.str "A"), ("scraped_at", Value.str "2")]]) "A" =
      some [("ticker_symbol", Value.str "A"), ("scraped_at", Value.str "2")] ∧
    charsLe (tsKey [("ticker_symbol", Value.str "A"), ("scraped_at", Value.str "1")]).data
      (tsKey [("ticker_symbol", Value.str "A"), ("scraped_at", Value.str "2")]).data = true := by
  have h := (merge_current_data_spec
    [[("ticker_symbol", Value.str "A"), ("scraped_at", Value.str "1")],
     [("ticker_symbol", Value.str "A"), ("scraped_at", Value.str "2")]]).2.2.1
  refine ⟨rfl, ?_⟩
  exact (h "A" [("ticker_symbol", Value.str "A"), ("scraped_at", Value.str "2")] rfl).2.2
    [("ticker_symbol", Value.str "A"), ("scraped_at", Value.str "1")] (by simp) rfl

theorem descKeyLe_total (a b : Option ℚ) : descKeyLe a b = true ∨ descKeyLe b a = true := by
  cases a <;> cases b <;> simp [descKeyLe]
  exact le_total _ _

theorem descKeyLe_trans (a b c : Option ℚ) (h1 : descKeyLe a b = true)
    (h2 : descKeyLe b c = true) : descKeyLe a c = true := by
  cases a <;> cases b <;> cases c <;> simp [descKeyLe] at h1 h2 ⊢
  exact le_trans h2 h1

theorem classifyCore_spec (key : String) (n : Nat) (proj : Row → Row) (r : Row)
    (rs : List Row) :
    ∃ l, (r :: rs).Perm l ∧ l.Sorted (descRel key) ∧
      classifyCore key n proj (r :: rs) =
        ⟨trendOf (meanOr0 (definedChanges key (r :: rs))),
         some (meanOr0 (definedChanges key (r :: rs))),
         (l.take n).map proj, (l.drop (l.length - n)).map proj⟩ := by
  haveI instTot : IsTotal Row (descRel key) :=
    ⟨fun a b => descKeyLe_total (changeOf key a) (changeOf key b)⟩
  haveI instTr : IsTrans Row (descRel key) :=
    ⟨fun a b c h1 h2 =>
      descKeyLe_trans (changeOf key a) (changeOf key b) (changeOf key c) h1 h2⟩
  refine ⟨rankDesc key (r :: rs), (List.perm_insertionSort _ _).symm,
    List.sorted_insertionSort _ _, ?_⟩
  rfl

/-- C6: on empty input every market classifier reports `insufficient_data`
with empty gainer/loser lists and no mean entry; on non-empty input the
trend is bullish/bearish/flat by the sign of the mean over the defined
(numeric) change values (0.0 when none is defined), and the gainers/losers
are the first/last N of a descending ranking by the change value (undefined
values last), projected with undefined values replaced by 0.0 — with N = 5
daily, N = 10 weekly and N = 15 monthly. -/
theorem classify_market_insights_spec (r : Row) (rs : List Row) :
    classify_market_insights [] = ⟨"insufficient_data", none, [], []⟩ ∧
    classify_weekly_market_insights [] = ⟨"insufficient_data", none, [], []⟩ ∧
    classify_monthly_market_insights [] = ⟨"insufficient_data", none, [], []⟩ ∧
    (∃ l, (r :: rs).Perm l ∧ l.Sorted (descRel "price_change_1d_pct") ∧
      classify_market_insights (r :: rs) =
        ⟨trendOf (meanOr0 (definedChanges "price_change_1d_pct" (r :: rs))),
         some (meanOr0 (definedChanges "price_change_1d_pct" (r :: rs))),
         (l.take 5).map projDaily, (l.drop (l.length - 5)).map projDaily⟩) ∧
    (∃ l, (r :: rs).Perm l ∧ l.Sorted (descRel "price_change_1w_pct") ∧
      classify_weekly_market_insights (r :: rs) =
        ⟨trendOf (meanOr0 (definedChanges "price_change_1w_pct" (r :: rs))),
         some (meanOr0 (definedChanges "price_change_1w_pct" (r :: rs))),
         (l.take 10).map projWeekly, (l.drop (l.length - 10)).map projWeekly⟩) ∧
    (∃ l, (r :: rs).Perm l ∧ l.Sorted (descRel "price_change_1m_pct") ∧
      classify_monthly_market_insights (r :: rs) =
        ⟨trendOf (meanOr0 (definedChanges "price_change_1m_pct" (r :: rs))),
         some (meanOr0 (definedChanges "price_change_1m_pct" (r :: rs))),
         (l.take 15).map projMonthly, (l.drop (l.length - 15)).map projMonthly⟩) := by
  refine ⟨rfl, rfl, rfl, ?_, ?_, ?_⟩
  · exact classifyCore_spec "price_change_1d_pct" 5 projDaily r rs
  · exact classifyCore_spec "price_change_1w_pct" 10 projWeekly r rs
  · exact classifyCore_spec "price_change_1m_pct" 15 projMonthly r rs
